import Mathlib

/-!
Verification development for the NACHOS CBOR decoder (TypeScript).

The definitions below are a shallow embedding of the decoder sources:

* the Major-Type-7 parser of src/parser/composables/useCborFloat.ts is
  translated function by function (float16ToFloat64, isNegativeZero,
  encodeFloat16Bytes, canBeFloat16, canBeFloat32, parseSimpleFromBuffer,
  parseFloatFromBuffer, parseFromBuffer, parseSimple, parseFloat, parse);
* JavaScript numbers are modelled by the type JsNum: NaN, signed
  infinities, negative zero and finite values as exact rationals (every
  number produced by the decoder is an exactly representable binary64
  value, so rationals are a lossless model); rational arithmetic is spelled
  with the executable helpers qAdd, qMul, qSub, qAbs and q2pow, which are
  proved equal to the ordinary field operations below;
* JavaScript 32-bit bitwise operator semantics (ToInt32 coercion and
  shift counts taken modulo 32) are modelled explicitly, because the
  mantissa extraction in encodeFloat16Bytes relies on them;
* helpers that live in files not shipped here (readByte, hexToBytes,
  extractCborHeader from src/parser/utils.ts) and the top level
  decode / decodeWithSourceMap orchestration (useCborParser) are
  modelled from the specification, and are marked as such in their
  doc comments.
-/

set_option maxRecDepth 8192

namespace Nachos

/-! ## Executable rational arithmetic -/

/-- Executable addition on rationals, kept reducible so that concrete
parser runs can be evaluated inside proofs. -/
def qAdd (a b : ℚ) : ℚ := mkRat (a.num * b.den + b.num * a.den) (a.den * b.den)

/-- Executable multiplication on rationals. -/
def qMul (a b : ℚ) : ℚ := mkRat (a.num * b.num) (a.den * b.den)

/-- Executable subtraction on rationals. -/
def qSub (a b : ℚ) : ℚ := qAdd a (Rat.neg b)

/-- Executable absolute value on rationals. -/
def qAbs (a : ℚ) : ℚ := if a < 0 then Rat.neg a else a

/-- Executable power of two with integer exponent. -/
def q2pow : ℤ → ℚ
  | .ofNat n => mkRat (2 ^ n) 1
  | .negSucc n => mkRat 1 (2 ^ (n + 1))

theorem qAdd_eq (a b : ℚ) : qAdd a b = a + b := by
  rw [qAdd, Rat.add_def, Rat.normalize_eq_mkRat]

theorem qMul_eq (a b : ℚ) : qMul a b = a * b := by
  rw [qMul, Rat.mul_def, Rat.normalize_eq_mkRat]

theorem qSub_eq (a b : ℚ) : qSub a b = a - b := by
  rw [qSub, qAdd_eq]
  show a + -b = a - b
  exact (sub_eq_add_neg a b).symm

theorem qAbs_eq (a : ℚ) : qAbs a = |a| := by
  show (if a < 0 then -a else a) = |a|
  rcases lt_or_le a 0 with h | h
  · rw [if_pos h, abs_of_neg h]
  · rw [if_neg (not_lt.mpr h), abs_of_nonneg h]

theorem q2pow_eq (z : ℤ) : q2pow z = (2 : ℚ) ^ z := by
  cases z with
  | ofNat n =>
    rw [q2pow, Rat.mkRat_eq_div]
    push_cast
    simp [zpow_natCast]
  | negSucc n =>
    rw [q2pow, Rat.mkRat_eq_div, zpow_negSucc]
    push_cast
    rw [one_div]

/-! ## The JavaScript number model -/

/-- A byte as stored in a Uint8Array. -/
abbrev Byte := Fin 256

/-- Model of a JavaScript number restricted to the values the decoder can
produce: NaN, the two infinities, negative zero, and finite values carried
as exact rationals (with `fin 0` standing for positive zero). Structural
equality of this type coincides with the JavaScript Object.is predicate,
which distinguishes -0 from +0 and identifies NaN with itself. -/
inductive JsNum where
  | nan
  | inf (neg : Bool)
  | negZero
  | fin (q : ℚ)
deriving DecidableEq, Repr

instance {ε α : Type} [DecidableEq ε] [DecidableEq α] : DecidableEq (Except ε α) :=
  fun a b =>
    match a, b with
    | .ok x, .ok y => decidable_of_iff (x = y) (by simp)
    | .error x, .error y => decidable_of_iff (x = y) (by simp)
    | .ok _, .error _ => isFalse (by simp)
    | .error _, .ok _ => isFalse (by simp)

/-- Model of the JavaScript Object.is predicate on numbers. -/
def objectIs (a b : JsNum) : Bool := decide (a = b)

/-- Model of Number.isNaN. -/
def jsIsNaN : JsNum → Bool
  | .nan => true
  | _ => false

/-- Model of ECMAScript ToInt32: reduce modulo 2^32 into [-2^31, 2^31). -/
def toInt32 (x : ℤ) : ℤ :=
  let m := x % (2 ^ 32 : ℤ)
  if m < 2 ^ 31 then m else m - 2 ^ 32

/-- Model of ECMAScript ToUint32: reduce modulo 2^32 into [0, 2^32). -/
def toUint32 (x : ℤ) : ℕ := (x % (2 ^ 32 : ℤ)).toNat

/-- Model of the JavaScript signed right shift x >> k: the left operand is
coerced with ToInt32, the shift count is taken modulo 32, and the shift is
arithmetic (floor division by a power of two). -/
def jsShr (x : ℤ) (k : ℕ) : ℤ :=
  Int.fdiv (toInt32 x) (2 ^ (k % 32))

/-- Model of the JavaScript left shift x << k with ToInt32 coercion of the
operand, shift count modulo 32, and wrap-around into int32 range. -/
def jsShl (x : ℤ) (k : ℕ) : ℤ :=
  toInt32 (toInt32 x * 2 ^ (k % 32))

/-- Model of the JavaScript bitwise or on int32 values. -/
def jsOr (a b : ℤ) : ℤ :=
  toInt32 (toUint32 a ||| toUint32 b)

/-- Model of the JavaScript bitwise and on int32 values. -/
def jsAnd (a b : ℤ) : ℤ :=
  toInt32 (toUint32 a &&& toUint32 b)

/-- Clamp a nonnegative integer below 256 into a byte. -/
def byteOfInt (x : ℤ) : Byte :=
  ⟨x.toNat % 256, Nat.mod_lt _ (by decide)⟩

/-- Greatest e with base2Pow ≤ a, found by linear scan: fuel bounds the
number of steps, e is the exponent whose power p = 2^(e+1) is tested next.
Used to model the exponent field extraction from binary64 bit patterns; the
callers choose start values and fuel so that the scan is exact on the whole
range in which the exponent is used. -/
def ilog2Aux : ℕ → ℤ → ℚ → ℚ → ℤ
  | 0, e, _, _ => e
  | n + 1, e, p, a => if p ≤ a then ilog2Aux n (e + 1) (qMul (mkRat 2 1) p) a else e

/-- Round a rational to the nearest integer, ties to even: models the
rounding performed by IEEE-754 binary conversions. -/
def roundQ (x : ℚ) : ℤ :=
  let f := Rat.floor x
  let r := qSub x (mkRat f 1)
  if r < mkRat 1 2 then f
  else if mkRat 1 2 < r then f + 1
  else if f % 2 = 0 then f else f + 1

/-! ## Helpers modelled from the spec (src/parser/utils.ts is not shipped) -/

/-- Modelled from the spec: bounds-checked single byte read. The helper
readByte lives in src/parser/utils.ts which is not among the shipped
sources; spec section 4.1 states that every read is bounds-checked and that
any out-of-range read fails with UnexpectedEof. -/
def readByte (buffer : List Byte) (offset : ℕ) : Except String Byte :=
  if h : offset < buffer.length then .ok buffer[offset]
  else .error "Unexpected end of buffer"

/-- Modelled from the spec: extract_header(b) = (b >> 5, b and 0x1F); the
helper extractCborHeader lives in src/parser/utils.ts which is not among
the shipped sources. -/
def extractCborHeader (b : Byte) : ℕ × ℕ :=
  (b.val >>> 5, b.val &&& 0x1f)

/-- Value of a hexadecimal digit character, if it is one. -/
def hexCharVal (c : Char) : Option ℕ :=
  if c.toNat ≥ 48 ∧ c.toNat ≤ 57 then some (c.toNat - 48)
  else if c.toNat ≥ 97 ∧ c.toNat ≤ 102 then some (c.toNat - 87)
  else if c.toNat ≥ 65 ∧ c.toNat ≤ 70 then some (c.toNat - 55)
  else none

/-- Pair up hex digits into bytes, failing on a stray digit or a non-hex
character. -/
def hexPairs : List Char → Except String (List Byte)
  | [] => .ok []
  | [_] => .error "Invalid hex string"
  | c1 :: c2 :: rest =>
    match hexCharVal c1, hexCharVal c2 with
    | some hi, some lo => do
      let tail ← hexPairs rest
      .ok (⟨(hi * 16 + lo) % 256, Nat.mod_lt _ (by decide)⟩ :: tail)
    | _, _ => .error "Invalid hex string"

/-- Modelled from the spec: hex_to_bytes requires even length and hex-only
characters and fails with InvalidHex on any deviation (spec section 4.2);
the helper hexToBytes lives in src/parser/utils.ts which is not among the
shipped sources. -/
def hexToBytes (hexString : String) : Except String (List Byte) :=
  hexPairs hexString.toList

/-! ## The Major-Type-7 parser of useCborFloat.ts -/

/-- Parser options visible to the Major-Type-7 parser: the only field the
module consults is validateCanonical (src/parser/types.ts is not among the
shipped sources; the remaining fields are irrelevant to this module). -/
structure ParseOptions where
  validateCanonical : Bool := false
deriving DecidableEq, Repr

/-- Decoded values produced by the Major-Type-7 parser of useCborFloat.ts:
booleans, null, undefined, simple values carrying their small integer, and
floats. -/
inductive CborVal where
  | bool (b : Bool)
  | nullV
  | undef
  | simple (n : ℕ)
  | float (x : JsNum)
deriving DecidableEq, Repr

/-- Embeds float16ToFloat64 of useCborFloat.ts: reads a big-endian 16-bit
pattern at the offset and converts it as IEEE-754 binary16, preserving the
zero signs, subnormals, the infinities and NaN. -/
def float16ToFloat64 (buffer : List Byte) (offset : ℕ) : Except String JsNum := do
  let byte1 ← readByte buffer offset
  let byte2 ← readByte buffer (offset + 1)
  let value := byte1.val <<< 8 ||| byte2.val
  let sign := (value &&& 0x8000) >>> 15
  let exponent := (value &&& 0x7c00) >>> 10
  let fraction := value &&& 0x03ff
  if exponent = 0 then
    if fraction = 0 then
      .ok (if sign = 0 then .fin 0 else .negZero)
    else
      .ok (.fin (qMul (qMul (if sign = 0 then 1 else Rat.neg 1) (q2pow (-14)))
        (mkRat fraction 1024)))
  else if exponent = 0x1f then
    if fraction = 0 then
      .ok (if sign = 0 then .inf false else .inf true)
    else
      .ok .nan
  else
    .ok (.fin (qMul (qMul (if sign = 0 then 1 else Rat.neg 1) (q2pow ((exponent : ℤ) - 15)))
      (qAdd 1 (mkRat fraction 1024))))

/-- Embeds isNegativeZero of useCborFloat.ts. -/
def isNegativeZero (value : JsNum) : Bool := objectIs value .negZero

/-- Exponent field of the binary64 representation of a positive rational,
relative to bias (the value Number((bits >> 52n) and 0x7ffn) - 1023 read by
encodeFloat16Bytes). The scan is clamped to [-16, 20]: the caller only
compares the exponent with -14 and 15 and uses its exact value inside
[-14, 15], and the clamp preserves the outcome of those comparisons for
every positive input. -/
def float64Exp (a : ℚ) : ℤ :=
  ilog2Aux 36 (-16) (q2pow (-15)) a

/-- Mantissa field of the binary64 representation of a positive rational
with exponent e (the value Number(bits and 0xfffffffffffffn) read by
encodeFloat16Bytes), exact whenever a is a binary64 value in [2^e, 2^(e+1)).
Only consulted by encodeFloat16Bytes when the exponent lies in [-14, 15]. -/
def float64Mant (a : ℚ) (e : ℤ) : ℕ :=
  (Rat.floor (qMul (qSub (qMul a (q2pow (-e))) 1) (q2pow 52))).toNat

/-- Embeds encodeFloat16Bytes of useCborFloat.ts. The mantissa narrowing in
the source is the JavaScript expression mant64 >> 42, whose semantics is
ToInt32(mant64) >> (42 mod 32); jsShr models exactly that. -/
def encodeFloat16Bytes (value : JsNum) : List Byte :=
  match value with
  | .negZero => [0x80, 0x00]
  | .nan => [0x7e, 0x00]
  | .inf false => [0x7c, 0x00]
  | .inf true => [0xfc, 0x00]
  | .fin q =>
    if q = 0 then [0x00, 0x00]
    else
      let sign : ℤ := if q < 0 then 1 else 0
      let absValue : ℚ := qAbs q
      let exp64 : ℤ := float64Exp absValue
      let mant64 : ℕ := float64Mant absValue exp64
      let em : ℤ × ℤ :=
        if exp64 < -14 then (0, 0)
        else if exp64 > 15 then (31, 0)
        else (exp64 + 15, jsShr (mant64 : ℤ) 42)
      let float16 : ℤ := jsOr (jsOr (jsShl sign 15) (jsShl em.1 10)) em.2
      [byteOfInt (jsAnd (jsShr float16 8) 0xff), byteOfInt (jsAnd float16 0xff)]

/-- Embeds canBeFloat16 of useCborFloat.ts: NaN, the infinities and both
zeros count as fitting; other finite values outside the binary16 normal
magnitude range do not fit (the literal 0.00006103515625 of the source is
exactly 2^-14 = 1/16384); the rest are tested by the encode-decode
round-trip compared with Object.is. -/
def canBeFloat16 (value : JsNum) : Bool :=
  match value with
  | .nan => true
  | .inf _ => true
  | .negZero => true
  | .fin q =>
    if q = 0 then true
    else
      let absValue : ℚ := qAbs q
      if absValue < mkRat 1 16384 ∨ absValue > 65504 then false
      else
        decide (float16ToFloat64 (encodeFloat16Bytes value) 0 = .ok value)

/-- Round a nonzero rational to the nearest IEEE-754 binary32 value
(ties to even), overflowing to the infinities: models the value observed
after DataView setFloat32 followed by getFloat32. -/
def roundToF32 (q : ℚ) : JsNum :=
  if q = 0 then .fin 0
  else
    let s : Bool := decide (q < 0)
    let a : ℚ := qAbs q
    if a < q2pow (-126) then
      let n := roundQ (qMul a (q2pow 149))
      if n = 0 then (if s then .negZero else .fin 0)
      else .fin (qMul (qMul (if s then Rat.neg 1 else 1) (mkRat n 1)) (q2pow (-149)))
    else
      let e : ℤ := ilog2Aux 1300 (-127) (q2pow (-126)) a
      let n := roundQ (qMul a (q2pow (23 - e)))
      if n ≥ 2 ^ 24 then
        (if e + 1 > 127 then .inf s
         else .fin (qMul (if s then Rat.neg 1 else 1) (q2pow (e + 1))))
      else if e > 127 then .inf s
      else .fin (qMul (qMul (if s then Rat.neg 1 else 1) (mkRat n 1)) (q2pow (e - 23)))

/-- Embeds canBeFloat32 of useCborFloat.ts: NaN, the infinities and both
zeros count as fitting; other finite values are tested by the DataView
setFloat32 / getFloat32 round-trip compared with Object.is. -/
def canBeFloat32 (value : JsNum) : Bool :=
  match value with
  | .nan => true
  | .inf _ => true
  | .negZero => true
  | .fin q =>
    if q = 0 then true
    else decide (roundToF32 q = .fin q)

/-- Model of DataView getFloat32 (big-endian): interpret four bytes as an
IEEE-754 binary32 bit pattern. -/
def decodeFloat32 (b1 b2 b3 b4 : Byte) : JsNum :=
  let bits := b1.val <<< 24 ||| b2.val <<< 16 ||| b3.val <<< 8 ||| b4.val
  let sign := bits >>> 31
  let ex := (bits >>> 23) &&& 0xff
  let frac := bits &&& 0x7fffff
  if ex = 0 then
    if frac = 0 then (if sign = 0 then .fin 0 else .negZero)
    else .fin (qMul (qMul (if sign = 0 then 1 else Rat.neg 1) (mkRat frac 1)) (q2pow (-149)))
  else if ex = 255 then
    (if frac = 0 then .inf (sign ≠ 0) else .nan)
  else
    .fin (qMul (qMul (if sign = 0 then 1 else Rat.neg 1) (q2pow ((ex : ℤ) - 127)))
      (qAdd 1 (mkRat frac (2 ^ 23))))

/-- Model of DataView getFloat64 (big-endian): interpret eight bytes as an
IEEE-754 binary64 bit pattern. -/
def decodeFloat64 (b1 b2 b3 b4 b5 b6 b7 b8 : Byte) : JsNum :=
  let hi := b1.val <<< 24 ||| b2.val <<< 16 ||| b3.val <<< 8 ||| b4.val
  let lo := b5.val <<< 24 ||| b6.val <<< 16 ||| b7.val <<< 8 ||| b8.val
  let bits := hi * 2 ^ 32 + lo
  let sign := bits >>> 63
  let ex := (bits >>> 52) &&& 0x7ff
  let frac := bits &&& 0xfffffffffffff
  if ex = 0 then
    if frac = 0 then (if sign = 0 then .fin 0 else .negZero)
    else .fin (qMul (qMul (if sign = 0 then 1 else Rat.neg 1) (mkRat frac 1)) (q2pow (-1074)))
  else if ex = 2047 then
    (if frac = 0 then .inf (sign ≠ 0) else .nan)
  else
    .fin (qMul (qMul (if sign = 0 then 1 else Rat.neg 1) (q2pow ((ex : ℤ) - 1023)))
      (qAdd 1 (mkRat frac (2 ^ 52))))

/-- Embeds parseSimpleFromBuffer of useCborFloat.ts, with thrown Error
messages modelled as the error channel of Except. -/
def parseSimpleFromBuffer (buffer : List Byte) (offset : ℕ) :
    Except String (CborVal × ℕ) := do
  let initialByte ← readByte buffer offset
  let header := extractCborHeader initialByte
  let majorType := header.1
  let additionalInfo := header.2
  if majorType ≠ 7 then
    .error ("Expected major type 7 (simple/float), got " ++ toString majorType)
  else if additionalInfo < 20 then
    .ok (.simple additionalInfo, 1)
  else
    match additionalInfo with
    | 20 => .ok (.bool false, 1)
    | 21 => .ok (.bool true, 1)
    | 22 => .ok (.nullV, 1)
    | 23 => .ok (.undef, 1)
    | 24 =>
      if offset + 1 ≥ buffer.length then
        .error "Unexpected end of buffer while reading simple value"
      else do
        let simpleValue ← readByte buffer (offset + 1)
        if simpleValue.val < 32 then
          .error ("Invalid 1-byte encoding for simple value " ++ toString simpleValue.val)
        else
          .ok (.simple simpleValue.val, 2)
    | 25 | 26 | 27 =>
      .error ("Additional info " ++ toString additionalInfo ++ " is a float, use parseFloat instead")
    | 28 | 29 | 30 =>
      .error ("Reserved additional info value: " ++ toString additionalInfo)
    | 31 =>
      .error "Break marker (0xff) should only appear in indefinite-length items"
    | _ =>
      .error ("Invalid additional info: " ++ toString additionalInfo)

/-- Embeds parseFloatFromBuffer of useCborFloat.ts: the byte layout checks,
the three float widths and the validateCanonical checks of the source,
including the fact that the binary16 case performs no canonical check. -/
def parseFloatFromBuffer (buffer : List Byte) (offset : ℕ)
    (options : Option ParseOptions) : Except String (CborVal × ℕ) := do
  let initialByte ← readByte buffer offset
  let header := extractCborHeader initialByte
  let majorType := header.1
  let additionalInfo := header.2
  if majorType ≠ 7 then
    .error ("Expected major type 7 (simple/float), got " ++ toString majorType)
  else
    match additionalInfo with
    | 25 =>
      if offset + 2 ≥ buffer.length then
        .error "Unexpected end of buffer while reading Float16"
      else do
        let value ← float16ToFloat64 buffer (offset + 1)
        .ok (.float value, 3)
    | 26 =>
      if offset + 4 ≥ buffer.length then
        .error "Unexpected end of buffer while reading Float32"
      else do
        let b1 ← readByte buffer (offset + 1)
        let b2 ← readByte buffer (offset + 2)
        let b3 ← readByte buffer (offset + 3)
        let b4 ← readByte buffer (offset + 4)
        let value := decodeFloat32 b1 b2 b3 b4
        if (options.map ParseOptions.validateCanonical).getD false then
          if jsIsNaN value then
            .error "Non-canonical NaN encoding: use float16 NaN"
          else if canBeFloat16 value then
            .error "Non-canonical float encoding: value fits in float16"
          else
            .ok (.float value, 5)
        else
          .ok (.float value, 5)
    | 27 =>
      if offset + 8 ≥ buffer.length then
        .error "Unexpected end of buffer while reading Float64"
      else do
        let b1 ← readByte buffer (offset + 1)
        let b2 ← readByte buffer (offset + 2)
        let b3 ← readByte buffer (offset + 3)
        let b4 ← readByte buffer (offset + 4)
        let b5 ← readByte buffer (offset + 5)
        let b6 ← readByte buffer (offset + 6)
        let b7 ← readByte buffer (offset + 7)
        let b8 ← readByte buffer (offset + 8)
        let value := decodeFloat64 b1 b2 b3 b4 b5 b6 b7 b8
        if (options.map ParseOptions.validateCanonical).getD false then
          if jsIsNaN value then
            .error "Non-canonical NaN encoding: use float16 NaN"
          else if canBeFloat16 value ∨ canBeFloat32 value then
            .error "Non-canonical float encoding: value fits in float16/float32"
          else
            .ok (.float value, 9)
        else
          .ok (.float value, 9)
    | _ =>
      .error ("Additional info " ++ toString additionalInfo ++ " is not a float type")

/-- Embeds parseFromBuffer of useCborFloat.ts: dispatch between the float
and the simple-value parser on the additional info. -/
def parseFromBuffer (buffer : List Byte) (offset : ℕ)
    (options : Option ParseOptions) : Except String (CborVal × ℕ) := do
  let initialByte ← readByte buffer offset
  let header := extractCborHeader initialByte
  let majorType := header.1
  let additionalInfo := header.2
  if majorType ≠ 7 then
    .error ("Expected major type 7 (simple/float), got " ++ toString majorType)
  else if additionalInfo = 25 ∨ additionalInfo = 26 ∨ additionalInfo = 27 then
    parseFloatFromBuffer buffer offset options
  else
    parseSimpleFromBuffer buffer offset

/-- Embeds parseSimple of useCborFloat.ts (hex-string entry point). -/
def parseSimple (hexString : String) (_options : Option ParseOptions := none) :
    Except String (CborVal × ℕ) := do
  let buffer ← hexToBytes hexString
  parseSimpleFromBuffer buffer 0

/-- Embeds parseFloat of useCborFloat.ts (hex-string entry point). -/
def parseFloat (hexString : String) (options : Option ParseOptions := none) :
    Except String (CborVal × ℕ) := do
  let buffer ← hexToBytes hexString
  parseFloatFromBuffer buffer 0 options

/-- Embeds parse of useCborFloat.ts (hex-string entry point). -/
def parse (hexString : String) (options : Option ParseOptions := none) :
    Except String (CborVal × ℕ) := do
  let buffer ← hexToBytes hexString
  parseFromBuffer buffer 0 options

/-! ## Bit-level bridge lemmas -/

/-- Bind on a successful Except result. -/
@[simp] theorem ok_bind {ε α β : Type} (a : α) (f : α → Except ε β) :
    (Except.ok a >>= f) = f a := rfl

/-- Bind on a failed Except result. -/
@[simp] theorem error_bind {ε α β : Type} (e : ε) (f : α → Except ε β) :
    (Except.error e >>= f : Except ε β) = .error e := rfl

/-- Joining a shifted high byte with a low byte is positional arithmetic. -/
theorem lor_shl8 (x y : ℕ) (hy : y < 256) : x <<< 8 ||| y = 256 * x + y := by
  have hy8 : y < 2 ^ 8 := hy
  have h : x <<< 8 ||| y = 2 ^ 8 * x + y := by
    apply Nat.eq_of_testBit_eq
    intro i
    rw [Nat.testBit_mul_pow_two_add _ hy8]
    simp only [Nat.testBit_or, Nat.testBit_shiftLeft]
    rcases Nat.lt_or_ge i 8 with hlt | hge
    · rw [if_pos hlt]
      simp [Nat.not_le.mpr hlt]
    · rw [if_neg (Nat.not_lt.mpr hge)]
      have hf : Nat.testBit y i = false :=
        Nat.testBit_lt_two_pow
          (lt_of_lt_of_le hy8 (Nat.pow_le_pow_right (by norm_num) hge))
      simp [hge, hf]
  rw [h]; norm_num

/-- Masking with a shifted constant and shifting down equals shifting down
and masking with the constant. -/
theorem and_shl_shr (v c k : ℕ) : (v &&& (c <<< k)) >>> k = (v >>> k) &&& c := by
  apply Nat.eq_of_testBit_eq
  intro j
  simp only [Nat.testBit_shiftRight, Nat.testBit_and, Nat.testBit_shiftLeft]
  simp [Nat.le_add_right k j, Nat.add_sub_cancel_left]

/-- The sign field extraction of the 16-bit pattern, arithmetically. -/
theorem eSign (v : ℕ) (hv : v < 65536) : (v &&& 0x8000) >>> 15 = v / 32768 := by
  conv_lhs => rw [show (0x8000 : ℕ) = 1 <<< 15 from rfl]
  rw [and_shl_shr, Nat.and_one_is_mod, Nat.shiftRight_eq_div_pow]
  have h2 : (2 : ℕ) ^ 15 = 32768 := by norm_num
  rw [h2]
  exact Nat.mod_eq_of_lt (by omega)

/-- The exponent field extraction of the 16-bit pattern, arithmetically. -/
theorem eExp (v : ℕ) : (v &&& 0x7c00) >>> 10 = v / 1024 % 32 := by
  conv_lhs => rw [show (0x7c00 : ℕ) = 31 <<< 10 from rfl]
  rw [and_shl_shr, Nat.shiftRight_eq_div_pow]
  conv_lhs => rw [show (31 : ℕ) = 2 ^ 5 - 1 from rfl]
  rw [Nat.and_pow_two_sub_one_eq_mod]

/-- The fraction field extraction of the 16-bit pattern, arithmetically. -/
theorem eFrac (v : ℕ) : v &&& 0x03ff = v % 1024 := by
  conv_lhs => rw [show (0x03ff : ℕ) = 2 ^ 10 - 1 from rfl]
  rw [Nat.and_pow_two_sub_one_eq_mod]

/-! ## The binary16 decode characterization -/

/-- Written from the claim for C4: the IEEE-754 binary16 interpretation of
the big-endian 16-bit pattern (b1, b2): sign, exponent and fraction fields,
with the stated formulas for normal numbers, subnormals, the zeros, the
infinities and NaN. -/
def float16SpecValue (b1 b2 : Byte) : JsNum :=
  let v := 256 * b1.val + b2.val
  let sign := v / 32768
  let exponent := v / 1024 % 32
  let fraction := v % 1024
  if exponent = 0 then
    if fraction = 0 then (if sign = 0 then .fin 0 else .negZero)
    else .fin ((-1 : ℚ) ^ sign * 2 ^ (-14 : ℤ) * (fraction / 1024))
  else if exponent = 31 then
    (if fraction = 0 then (if sign = 0 then .inf false else .inf true) else .nan)
  else
    .fin ((-1 : ℚ) ^ sign * 2 ^ ((exponent : ℤ) - 15) * (1 + fraction / 1024))

/-- The sign factor of the source agrees with the power form of the spec. -/
theorem signQ_eq (s : ℕ) (hs : s = 0 ∨ s = 1) :
    (if s = 0 then (1 : ℚ) else Rat.neg 1) = (-1 : ℚ) ^ s := by
  rcases hs with h | h <;> rw [h] <;> simp [show (Rat.neg 1 : ℚ) = -1 from rfl]

/-- The embedded float16ToFloat64 computes exactly the IEEE-754 binary16
interpretation stated by the spec. -/
theorem float16_decode_spec (c b1 b2 : Byte) :
    float16ToFloat64 [c, b1, b2] 1 = .ok (float16SpecValue b1 b2) := by
  have e1 : readByte [c, b1, b2] 1 = .ok b1 := rfl
  have e2 : readByte [c, b1, b2] (1 + 1) = .ok b2 := rfl
  rw [float16ToFloat64, e1, ok_bind, e2, ok_bind]
  rw [float16SpecValue]
  simp only [lor_shl8 b1.val b2.val b2.isLt]
  have hv : 256 * b1.val + b2.val < 65536 := by
    have := b1.isLt; have := b2.isLt; omega
  rw [eSign _ hv, eExp, eFrac]
  set v := 256 * b1.val + b2.val with hvdef
  have hs : v / 32768 = 0 ∨ v / 32768 = 1 := by omega
  generalize v / 32768 = s at hs ⊢
  generalize v / 1024 % 32 = ex
  generalize v % 1024 = f
  by_cases h1 : ex = 0
  · rw [if_pos h1, if_pos h1]
    by_cases h2 : f = 0
    · rw [if_pos h2, if_pos h2]
    · rw [if_neg h2, if_neg h2]
      refine congrArg _ (congrArg _ ?_)
      rw [qMul_eq, qMul_eq, q2pow_eq, Rat.mkRat_eq_div, signQ_eq s hs]
      push_cast
      ring
  · rw [if_neg h1, if_neg h1]
    by_cases h3 : ex = 31
    · rw [if_pos (show ex = 0x1f from h3), if_pos h3]
      by_cases h2 : f = 0
      · rw [if_pos h2, if_pos h2]
      · rw [if_neg h2, if_neg h2]
    · rw [if_neg (show ¬ex = 0x1f from h3), if_neg h3]
      refine congrArg _ (congrArg _ ?_)
      rw [qMul_eq, qMul_eq, q2pow_eq, qAdd_eq, Rat.mkRat_eq_div, signQ_eq s hs]
      push_cast
      ring

/-- The full binary16 parse path: on a three byte buffer 0xf9 b1 b2, the
float parser returns the IEEE-754 binary16 value with bytesRead = 3, for
every options record. -/
theorem parseFloat16_spec (b1 b2 : Byte) (opts : Option ParseOptions) :
    parseFloatFromBuffer [0xf9, b1, b2] 0 opts = .ok (.float (float16SpecValue b1 b2), 3) := by
  rw [parseFloatFromBuffer]
  have r0 : readByte [(0xf9 : Byte), b1, b2] 0 = .ok 0xf9 := rfl
  rw [r0, ok_bind]
  rw [show extractCborHeader (0xf9 : Byte) = (7, 25) from by decide]
  show (float16ToFloat64 [(0xf9 : Byte), b1, b2] (0 + 1) >>=
      fun v => Except.ok (CborVal.float v, 3)) =
    Except.ok (CborVal.float (float16SpecValue b1 b2), 3)
  rw [show (0 + 1) = 1 from rfl, float16_decode_spec, ok_bind]


/-! ## Flow lemmas for the wider float widths and the simple parser -/

/-- Reading the head of a cons cell succeeds with the head. -/
theorem readByte_cons_zero (a : Byte) (l : List Byte) : readByte (a :: l) 0 = .ok a := by
  rw [readByte, dif_pos (show 0 < (a :: l).length by simp)]
  rfl

/-- Reading past the head of a cons cell reads the tail. -/
theorem readByte_cons_succ (a : Byte) (l : List Byte) (n : ℕ) :
    readByte (a :: l) (n + 1) = readByte l n := by
  rw [readByte, readByte]
  by_cases h : n < l.length
  · rw [dif_pos (show n + 1 < (a :: l).length by simp [Nat.succ_lt_succ h]),
      dif_pos h]
    simp
  · rw [dif_neg (show ¬(n + 1 < (a :: l).length) by
      simp only [List.length_cons]; omega), dif_neg h]

/-- The binary16 decoder on a two byte buffer also computes the IEEE-754
binary16 interpretation. -/
theorem float16_decode_spec2 (b1 b2 : Byte) :
    float16ToFloat64 [b1, b2] 0 = .ok (float16SpecValue b1 b2) := by
  have h : float16ToFloat64 [b1, b2] 0 = float16ToFloat64 [(0 : Byte), b1, b2] 1 := rfl
  rw [h, float16_decode_spec]

/-- The binary32 case of the float parser under validateCanonical, with the
concrete byte layout control flow discharged. -/
theorem parseFloat32_canonical_spec (b1 b2 b3 b4 : Byte) :
    parseFloatFromBuffer [0xfa, b1, b2, b3, b4] 0 (some ⟨true⟩) =
      (if jsIsNaN (decodeFloat32 b1 b2 b3 b4) = true then
        .error "Non-canonical NaN encoding: use float16 NaN"
      else if canBeFloat16 (decodeFloat32 b1 b2 b3 b4) = true then
        .error "Non-canonical float encoding: value fits in float16"
      else .ok (.float (decodeFloat32 b1 b2 b3 b4), 5)) := by
  rw [parseFloatFromBuffer]
  have r0 : readByte [(0xfa : Byte), b1, b2, b3, b4] 0 = .ok 0xfa := rfl
  rw [r0, ok_bind]
  rw [show extractCborHeader (0xfa : Byte) = (7, 26) from by decide]
  rfl

/-- The binary64 case of the float parser under validateCanonical, with the
concrete byte layout control flow discharged. -/
theorem parseFloat64_canonical_spec (b1 b2 b3 b4 b5 b6 b7 b8 : Byte) :
    parseFloatFromBuffer [0xfb, b1, b2, b3, b4, b5, b6, b7, b8] 0 (some ⟨true⟩) =
      (if jsIsNaN (decodeFloat64 b1 b2 b3 b4 b5 b6 b7 b8) = true then
        .error "Non-canonical NaN encoding: use float16 NaN"
      else if (canBeFloat16 (decodeFloat64 b1 b2 b3 b4 b5 b6 b7 b8) = true ∨
          canBeFloat32 (decodeFloat64 b1 b2 b3 b4 b5 b6 b7 b8) = true) then
        .error "Non-canonical float encoding: value fits in float16/float32"
      else .ok (.float (decodeFloat64 b1 b2 b3 b4 b5 b6 b7 b8), 9)) := by
  rw [parseFloatFromBuffer]
  have r0 : readByte [(0xfb : Byte), b1, b2, b3, b4, b5, b6, b7, b8] 0 = .ok 0xfb := rfl
  rw [r0, ok_bind]
  rw [show extractCborHeader (0xfb : Byte) = (7, 27) from by decide]
  rfl

/-- A binary16 encoding that decodes to NaN parses successfully under any
options: the binary16 case of the source has no canonical NaN check. -/
theorem nan16_parses (b1 b2 : Byte) (opts : Option ParseOptions)
    (h : float16ToFloat64 [b1, b2] 0 = .ok .nan) :
    parseFloatFromBuffer [0xf9, b1, b2] 0 opts = .ok (.float .nan, 3) := by
  rw [float16_decode_spec2] at h
  simp only [Except.ok.injEq] at h
  rw [parseFloat16_spec, h]

/-- A binary32 NaN encoding fails under validateCanonical. -/
theorem nan32_fails (b1 b2 b3 b4 : Byte) (h : decodeFloat32 b1 b2 b3 b4 = .nan) :
    parseFloatFromBuffer [0xfa, b1, b2, b3, b4] 0 (some ⟨true⟩) =
      .error "Non-canonical NaN encoding: use float16 NaN" := by
  rw [parseFloat32_canonical_spec, h]
  rfl

/-- A binary64 NaN encoding fails under validateCanonical. -/
theorem nan64_fails (b1 b2 b3 b4 b5 b6 b7 b8 : Byte)
    (h : decodeFloat64 b1 b2 b3 b4 b5 b6 b7 b8 = .nan) :
    parseFloatFromBuffer [0xfb, b1, b2, b3, b4, b5, b6, b7, b8] 0 (some ⟨true⟩) =
      .error "Non-canonical NaN encoding: use float16 NaN" := by
  rw [parseFloat64_canonical_spec, h]
  rfl

/-- The one byte simple value case: exactly one byte after the header is
read, values below 32 are rejected, the rest succeed with bytesRead 2. -/
theorem parseSimple24_spec (b : Byte) (rest : List Byte) :
    parseSimpleFromBuffer (0xf8 :: b :: rest) 0 =
      if b.val < 32 then
        .error ("Invalid 1-byte encoding for simple value " ++ toString b.val)
      else .ok (.simple b.val, 2) := by
  rw [parseSimpleFromBuffer, readByte_cons_zero, ok_bind]
  rw [show extractCborHeader (0xf8 : Byte) = (7, 24) from by decide]
  show (if 0 + 1 ≥ (0xf8 :: b :: rest : List Byte).length then
      (Except.error "Unexpected end of buffer while reading simple value" :
        Except String (CborVal × ℕ))
    else readByte (0xf8 :: b :: rest) (0 + 1) >>= fun simpleValue =>
      if simpleValue.val < 32 then
        Except.error ("Invalid 1-byte encoding for simple value " ++ toString simpleValue.val)
      else Except.ok (CborVal.simple simpleValue.val, 2)) = _
  have hlen : ¬(0 + 1 ≥ (0xf8 :: b :: rest : List Byte).length) := by simp
  rw [if_neg hlen, show (0 + 1) = 1 from rfl, readByte_cons_succ, readByte_cons_zero, ok_bind]


/-! ## Round-trip representability lemmas -/

/-- Model of Number.isFinite. -/
def jsIsFinite : JsNum → Bool
  | .nan => false
  | .inf _ => false
  | _ => true

/-- Model of the setFloat32 / getFloat32 round-trip at the JsNum level:
finite nonzero values are rounded to binary32, NaN, the infinities and the
zeros are preserved. -/
def roundTripF32 : JsNum → JsNum
  | .fin q => roundToF32 q
  | x => x

/-- The encoder always emits exactly two bytes. -/
theorem encodeFloat16Bytes_pair (v : JsNum) :
    ∃ c1 c2 : Byte, encodeFloat16Bytes v = [c1, c2] := by
  cases v with
  | nan => exact ⟨_, _, rfl⟩
  | negZero => exact ⟨_, _, rfl⟩
  | inf b => cases b <;> exact ⟨_, _, rfl⟩
  | fin q =>
    rw [encodeFloat16Bytes]
    by_cases h : q = 0
    · rw [if_pos h]; exact ⟨_, _, rfl⟩
    · rw [if_neg h]; exact ⟨_, _, rfl⟩

/-- A positive canBeFloat16 verdict exhibits two bytes whose binary16
decoding is the value: the value is binary16-representable. -/
theorem canBeFloat16_true_rep (q : ℚ) (h0 : q ≠ 0)
    (h : canBeFloat16 (.fin q) = true) :
    ∃ c1 c2 : Byte, float16ToFloat64 [c1, c2] 0 = .ok (.fin q) := by
  simp only [canBeFloat16] at h
  rw [if_neg h0] at h
  by_cases hr : qAbs q < mkRat 1 16384 ∨ qAbs q > 65504
  · rw [if_pos hr] at h
    exact absurd h (by simp)
  · rw [if_neg hr] at h
    have hprop := of_decide_eq_true h
    obtain ⟨c1, c2, hp⟩ := encodeFloat16Bytes_pair (.fin q)
    rw [hp] at hprop
    exact ⟨c1, c2, hprop⟩

/-- A value that no binary16 bit pattern decodes to is never accepted by
canBeFloat16. -/
theorem canBeFloat16_false_of_not_rep (q : ℚ) (h0 : q ≠ 0)
    (h : ¬ ∃ c1 c2 : Byte, float16ToFloat64 [c1, c2] 0 = .ok (.fin q)) :
    canBeFloat16 (.fin q) = false := by
  cases hcb : canBeFloat16 (.fin q) with
  | false => rfl
  | true => exact absurd (canBeFloat16_true_rep q h0 hcb) h

/-- canBeFloat32 accepts every value preserved by the binary32 round-trip. -/
theorem canBeFloat32_true_of_roundtrip (q : ℚ) (h : roundToF32 q = .fin q) :
    canBeFloat32 (.fin q) = true := by
  simp only [canBeFloat32]
  by_cases h0 : q = 0
  · rw [if_pos h0]
  · rw [if_neg h0]
    exact decide_eq_true h

/-- canBeFloat32 rejects every nonzero value changed by the binary32
round-trip. -/
theorem canBeFloat32_false_of_not_roundtrip (q : ℚ) (h0 : q ≠ 0)
    (h : roundToF32 q ≠ .fin q) : canBeFloat32 (.fin q) = false := by
  simp only [canBeFloat32]
  rw [if_neg h0]
  exact decide_eq_false h

/-- Every finite binary16 value has magnitude below 262144. -/
theorem float16SpecValue_fin_bound (b1 b2 : Byte) (q : ℚ)
    (h : float16SpecValue b1 b2 = .fin q) : |q| < 262144 := by
  rw [float16SpecValue] at h
  set v := 256 * b1.val + b2.val with hv
  set s := v / 32768 with hsdef
  set ex := v / 1024 % 32 with hexdef
  set f := v % 1024 with hfdef
  have hf : f < 1024 := Nat.mod_lt _ (by norm_num)
  have hex : ex < 32 := Nat.mod_lt _ (by norm_num)
  have habs1 : |(-1 : ℚ) ^ s| = 1 := by
    rw [abs_pow, abs_neg, abs_one, one_pow]
  have hfq : (f : ℚ) / 1024 < 1 := by
    rw [div_lt_one (by norm_num)]
    exact_mod_cast hf
  have hfq0 : (0 : ℚ) ≤ (f : ℚ) / 1024 := by positivity
  by_cases h1 : ex = 0
  · rw [if_pos h1] at h
    by_cases h2 : f = 0
    · rw [if_pos h2] at h
      by_cases h3 : s = 0
      · rw [if_pos h3] at h
        cases h
        norm_num
      · rw [if_neg h3] at h
        cases h
    · rw [if_neg h2] at h
      cases h
      rw [abs_mul, abs_mul, habs1, one_mul]
      have hzp : |(2 : ℚ) ^ (-14 : ℤ)| ≤ 1 := by
        rw [abs_of_pos (by positivity)]
        calc (2 : ℚ) ^ (-14 : ℤ) ≤ 2 ^ (0 : ℤ) :=
              zpow_le_zpow_right₀ (by norm_num) (by omega)
          _ = 1 := zpow_zero 2
      have habs2 : |(f : ℚ) / 1024| < 1 := by
        rw [abs_of_nonneg hfq0]
        exact hfq
      calc |(2 : ℚ) ^ (-14 : ℤ)| * |(f : ℚ) / 1024|
          ≤ 1 * |(f : ℚ) / 1024| := mul_le_mul_of_nonneg_right hzp (abs_nonneg _)
        _ < 1 * 1 := by rw [one_mul, one_mul]; exact habs2
        _ ≤ 262144 := by norm_num
  · rw [if_neg h1] at h
    by_cases h3 : ex = 31
    · rw [if_pos h3] at h
      by_cases h2 : f = 0
      · rw [if_pos h2] at h
        by_cases h4 : s = 0
        · rw [if_pos h4] at h; cases h
        · rw [if_neg h4] at h; cases h
      · rw [if_neg h2] at h; cases h
    · rw [if_neg h3] at h
      cases h
      rw [abs_mul, abs_mul, habs1, one_mul]
      have hzp : |(2 : ℚ) ^ ((ex : ℤ) - 15)| ≤ 2 ^ (16 : ℤ) := by
        rw [abs_of_pos (by positivity)]
        exact zpow_le_zpow_right₀ (by norm_num) (by omega)
      have hsum : |1 + (f : ℚ) / 1024| < 2 := by
        rw [abs_of_pos (by positivity)]
        linarith
      calc |(2 : ℚ) ^ ((ex : ℤ) - 15)| * |1 + (f : ℚ) / 1024|
          ≤ 2 ^ (16 : ℤ) * |1 + (f : ℚ) / 1024| := by
            exact mul_le_mul_of_nonneg_right hzp (abs_nonneg _)
        _ < 2 ^ (16 : ℤ) * 2 := by
            exact mul_lt_mul_of_pos_left hsum (by positivity)
        _ ≤ 262144 := by norm_num



/-- Every finite value decodable from a binary16 pattern has magnitude
below 262144. -/
theorem float16_rep_bound (c1 c2 : Byte) (q : ℚ)
    (h : float16ToFloat64 [c1, c2] 0 = .ok (.fin q)) : |q| < 262144 := by
  rw [float16_decode_spec2] at h
  exact float16SpecValue_fin_bound c1 c2 q (by simpa using h)

/-- A finite binary64-encoded value preserved by the binary32 round-trip
fails with the non-minimal float error under validateCanonical. -/
theorem float64_minimal_fails (b1 b2 b3 b4 b5 b6 b7 b8 : Byte) (v : JsNum)
    (hd : decodeFloat64 b1 b2 b3 b4 b5 b6 b7 b8 = v)
    (hfin : jsIsFinite v = true) (hrt : roundTripF32 v = v) :
    parseFloatFromBuffer [0xfb, b1, b2, b3, b4, b5, b6, b7, b8] 0 (some ⟨true⟩) =
      .error "Non-canonical float encoding: value fits in float16/float32" := by
  rw [parseFloat64_canonical_spec, hd]
  cases v with
  | nan => exact absurd hfin (by simp [jsIsFinite])
  | inf b => exact absurd hfin (by simp [jsIsFinite])
  | negZero =>
    rw [if_neg (show ¬(jsIsNaN JsNum.negZero = true) by simp [jsIsNaN])]
    rw [if_pos (Or.inl (show canBeFloat16 JsNum.negZero = true from rfl))]
  | fin q =>
    have h32 : canBeFloat32 (.fin q) = true := canBeFloat32_true_of_roundtrip q hrt
    rw [if_neg (show ¬(jsIsNaN (JsNum.fin q) = true) by simp [jsIsNaN])]
    rw [if_pos (Or.inr h32)]

/-- A binary64-encoded value representable in neither binary32 nor binary16
parses successfully under validateCanonical. -/
theorem float64_wide_parses (b1 b2 b3 b4 b5 b6 b7 b8 : Byte) (q : ℚ)
    (hd : decodeFloat64 b1 b2 b3 b4 b5 b6 b7 b8 = .fin q) (h0 : q ≠ 0)
    (h16 : ¬ ∃ c1 c2 : Byte, float16ToFloat64 [c1, c2] 0 = .ok (.fin q))
    (h32 : roundToF32 q ≠ .fin q) :
    parseFloatFromBuffer [0xfb, b1, b2, b3, b4, b5, b6, b7, b8] 0 (some ⟨true⟩) =
      .ok (.float (.fin q), 9) := by
  rw [parseFloat64_canonical_spec, hd]
  rw [if_neg (show ¬(jsIsNaN (JsNum.fin q) = true) by simp [jsIsNaN])]
  have hc16 := canBeFloat16_false_of_not_rep q h0 h16
  have hc32 := canBeFloat32_false_of_not_roundtrip q h0 h32
  rw [if_neg (by simp [hc16, hc32])]







/-! ## Bounds and translation lemmas -/

/-- A read inside the buffer returns the byte at the offset. -/
theorem readByte_ok (buffer : List Byte) (offset : ℕ) (h : offset < buffer.length) :
    readByte buffer offset = .ok buffer[offset] := dif_pos h

/-- A read outside the buffer fails with the end-of-buffer error. -/
theorem readByte_eof (buffer : List Byte) (offset : ℕ) (h : ¬ offset < buffer.length) :
    readByte buffer offset = .error "Unexpected end of buffer" := dif_neg h

/-- The simple parser fails with the end-of-buffer error when the initial
byte is already out of range. -/
theorem parseSimple_eof_initial (buffer : List Byte) (offset : ℕ)
    (h : offset ≥ buffer.length) :
    parseSimpleFromBuffer buffer offset = .error "Unexpected end of buffer" := by
  rw [parseSimpleFromBuffer, readByte_eof _ _ (not_lt.mpr h), error_bind]

/-- The float parser fails with the end-of-buffer error when the initial
byte is already out of range. -/
theorem parseFloat_eof_initial (buffer : List Byte) (offset : ℕ)
    (opts : Option ParseOptions) (h : offset ≥ buffer.length) :
    parseFloatFromBuffer buffer offset opts = .error "Unexpected end of buffer" := by
  rw [parseFloatFromBuffer, readByte_eof _ _ (not_lt.mpr h), error_bind]

/-- The one byte simple payload truncated by the end of the buffer fails
with the dedicated end-of-buffer error. -/
theorem parseSimple24_eof (buffer : List Byte) (offset : ℕ)
    (h : offset < buffer.length)
    (hh : extractCborHeader buffer[offset] = (7, 24))
    (hb : offset + 1 ≥ buffer.length) :
    parseSimpleFromBuffer buffer offset =
      .error "Unexpected end of buffer while reading simple value" := by
  rw [parseSimpleFromBuffer, readByte_ok _ _ h, ok_bind, hh]
  show (if offset + 1 ≥ buffer.length then
      (Except.error "Unexpected end of buffer while reading simple value" :
        Except String (CborVal × ℕ))
    else readByte buffer (offset + 1) >>= fun simpleValue =>
      if simpleValue.val < 32 then
        Except.error ("Invalid 1-byte encoding for simple value " ++ toString simpleValue.val)
      else Except.ok (CborVal.simple simpleValue.val, 2)) = _
  rw [if_pos hb]

/-- A binary16 payload truncated by the end of the buffer fails with the
dedicated end-of-buffer error. -/
theorem parseFloat25_eof (buffer : List Byte) (offset : ℕ) (opts : Option ParseOptions)
    (h : offset < buffer.length)
    (hh : extractCborHeader buffer[offset] = (7, 25))
    (hb : offset + 2 ≥ buffer.length) :
    parseFloatFromBuffer buffer offset opts =
      .error "Unexpected end of buffer while reading Float16" := by
  rw [parseFloatFromBuffer, readByte_ok _ _ h, ok_bind, hh]
  show (if offset + 2 ≥ buffer.length then
      (Except.error "Unexpected end of buffer while reading Float16" :
        Except String (CborVal × ℕ))
    else float16ToFloat64 buffer (offset + 1) >>= fun value =>
      Except.ok (CborVal.float value, 3)) = _
  rw [if_pos hb]



/-- A binary32 payload truncated by the end of the buffer fails with the
dedicated end-of-buffer error. -/
theorem parseFloat26_eof (buffer : List Byte) (offset : ℕ) (opts : Option ParseOptions)
    (h : offset < buffer.length)
    (hh : extractCborHeader buffer[offset] = (7, 26))
    (hb : offset + 4 ≥ buffer.length) :
    parseFloatFromBuffer buffer offset opts =
      .error "Unexpected end of buffer while reading Float32" := by
  rw [parseFloatFromBuffer, readByte_ok _ _ h, ok_bind, hh]
  show (if offset + 4 ≥ buffer.length then
      (Except.error "Unexpected end of buffer while reading Float32" :
        Except String (CborVal × ℕ))
    else readByte buffer (offset + 1) >>= fun b1 =>
      readByte buffer (offset + 2) >>= fun b2 =>
      readByte buffer (offset + 3) >>= fun b3 =>
      readByte buffer (offset + 4) >>= fun b4 =>
      if (Option.map ParseOptions.validateCanonical opts).getD false = true then
        if jsIsNaN (decodeFloat32 b1 b2 b3 b4) = true then
          Except.error "Non-canonical NaN encoding: use float16 NaN"
        else if canBeFloat16 (decodeFloat32 b1 b2 b3 b4) = true then
          Except.error "Non-canonical float encoding: value fits in float16"
        else Except.ok (CborVal.float (decodeFloat32 b1 b2 b3 b4), 5)
      else Except.ok (CborVal.float (decodeFloat32 b1 b2 b3 b4), 5)) = _
  rw [if_pos hb]

/-- A binary64 payload truncated by the end of the buffer fails with the
dedicated end-of-buffer error. -/
theorem parseFloat27_eof (buffer : List Byte) (offset : ℕ) (opts : Option ParseOptions)
    (h : offset < buffer.length)
    (hh : extractCborHeader buffer[offset] = (7, 27))
    (hb : offset + 8 ≥ buffer.length) :
    parseFloatFromBuffer buffer offset opts =
      .error "Unexpected end of buffer while reading Float64" := by
  rw [parseFloatFromBuffer, readByte_ok _ _ h, ok_bind, hh]
  show (if offset + 8 ≥ buffer.length then
      (Except.error "Unexpected end of buffer while reading Float64" :
        Except String (CborVal × ℕ))
    else readByte buffer (offset + 1) >>= fun b1 =>
      readByte buffer (offset + 2) >>= fun b2 =>
      readByte buffer (offset + 3) >>= fun b3 =>
      readByte buffer (offset + 4) >>= fun b4 =>
      readByte buffer (offset + 5) >>= fun b5 =>
      readByte buffer (offset + 6) >>= fun b6 =>
      readByte buffer (offset + 7) >>= fun b7 =>
      readByte buffer (offset + 8) >>= fun b8 =>
      if (Option.map ParseOptions.validateCanonical opts).getD false = true then
        if jsIsNaN (decodeFloat64 b1 b2 b3 b4 b5 b6 b7 b8) = true then
          Except.error "Non-canonical NaN encoding: use float16 NaN"
        else if (canBeFloat16 (decodeFloat64 b1 b2 b3 b4 b5 b6 b7 b8) = true ∨
            canBeFloat32 (decodeFloat64 b1 b2 b3 b4 b5 b6 b7 b8) = true) then
          Except.error "Non-canonical float encoding: value fits in float16/float32"
        else Except.ok (CborVal.float (decodeFloat64 b1 b2 b3 b4 b5 b6 b7 b8), 9)
      else Except.ok (CborVal.float (decodeFloat64 b1 b2 b3 b4 b5 b6 b7 b8), 9)) = _
  rw [if_pos hb]

/-- A read is invariant under translating buffer and offset by a common
prefix. -/
theorem readByte_append (pre buf : List Byte) (off : ℕ) :
    readByte (pre ++ buf) (pre.length + off) = readByte buf off := by
  rw [readByte, readByte]
  by_cases h : off < buf.length
  · rw [dif_pos (show pre.length + off < (pre ++ buf).length by
      simp only [List.length_append]; omega), dif_pos h]
    congr 1
    rw [List.getElem_append_right (by omega)]
    congr 1
    omega
  · rw [dif_neg (show ¬(pre.length + off < (pre ++ buf).length) by
      simp only [List.length_append]; omega), dif_neg h]

/-- The binary16 decoder is invariant under translating buffer and offset
by a common prefix. -/
theorem float16ToFloat64_append (pre buf : List Byte) (off : ℕ) :
    float16ToFloat64 (pre ++ buf) (pre.length + off) = float16ToFloat64 buf off := by
  rw [float16ToFloat64, float16ToFloat64, Nat.add_assoc, readByte_append, readByte_append]

/-- The simple parser result, errors included, is invariant under
translating buffer and offset by a common prefix. -/
theorem parseSimpleFromBuffer_append (pre buf : List Byte) (off : ℕ) :
    parseSimpleFromBuffer (pre ++ buf) (pre.length + off) = parseSimpleFromBuffer buf off := by
  rw [parseSimpleFromBuffer, parseSimpleFromBuffer, readByte_append]
  simp only [ge_iff_le, List.length_append, Nat.add_assoc, Nat.add_le_add_iff_left,
    readByte_append]

/-- The float parser result, errors included, is invariant under
translating buffer and offset by a common prefix. -/
theorem parseFloatFromBuffer_append (pre buf : List Byte) (off : ℕ)
    (opts : Option ParseOptions) :
    parseFloatFromBuffer (pre ++ buf) (pre.length + off) opts =
      parseFloatFromBuffer buf off opts := by
  rw [parseFloatFromBuffer, parseFloatFromBuffer, readByte_append]
  simp only [ge_iff_le, List.length_append, Nat.add_assoc, Nat.add_le_add_iff_left,
    readByte_append, float16ToFloat64_append]


/-! ## Claims about the Major-Type-7 parser -/

/-- C2: counterexample to the claim as stated. The binary16 encoding
f9 7e 01 decodes to NaN with a payload other than 0x7e00; the claim
requires parseFloat under validate_canonical to fail with NonCanonicalNaN,
but the source parses it successfully: the binary16 case of
parseFloatFromBuffer has no canonical NaN check. -/
theorem C2_counterexample :
    parseFloat "f97e01" (some ⟨true⟩) = .ok (.float .nan, 3) := by decide

/-- C2 (amended): under validate_canonical a NaN encoded in binary32 or
binary64 fails with the NonCanonicalNaN error, while every binary16
encoding that decodes to NaN, whatever its payload, parses successfully to
NaN with bytesRead = 3 under any options. -/
theorem C2_nan_canonical_amended :
    (∀ (b1 b2 : Byte) (opts : Option ParseOptions),
      float16ToFloat64 [b1, b2] 0 = .ok .nan →
      parseFloatFromBuffer [0xf9, b1, b2] 0 opts = .ok (.float .nan, 3)) ∧
    (∀ b1 b2 b3 b4 : Byte, decodeFloat32 b1 b2 b3 b4 = .nan →
      parseFloatFromBuffer [0xfa, b1, b2, b3, b4] 0 (some ⟨true⟩) =
        .error "Non-canonical NaN encoding: use float16 NaN") ∧
    (∀ b1 b2 b3 b4 b5 b6 b7 b8 : Byte,
      decodeFloat64 b1 b2 b3 b4 b5 b6 b7 b8 = .nan →
      parseFloatFromBuffer [0xfb, b1, b2, b3, b4, b5, b6, b7, b8] 0 (some ⟨true⟩) =
        .error "Non-canonical NaN encoding: use float16 NaN") :=
  ⟨nan16_parses, nan32_fails, nan64_fails⟩

/-- C2: witness instantiating the amended theorem at concrete inputs:
the binary16 NaN f97e01, the binary32 NaN ffc00000 and the binary64 NaN
7ff8000000000000. -/
theorem C2_witness :
    parseFloatFromBuffer [0xf9, 0x7e, 0x01] 0 (some ⟨true⟩) = .ok (.float .nan, 3) ∧
    parseFloatFromBuffer [0xfa, 0xff, 0xc0, 0x00, 0x00] 0 (some ⟨true⟩) =
      .error "Non-canonical NaN encoding: use float16 NaN" ∧
    parseFloatFromBuffer [0xfb, 0x7f, 0xf8, 0x00, 0x00, 0x00, 0x00, 0x00, 0x00] 0
      (some ⟨true⟩) = .error "Non-canonical NaN encoding: use float16 NaN" :=
  ⟨C2_nan_canonical_amended.1 0x7e 0x01 (some ⟨true⟩) (by decide),
   C2_nan_canonical_amended.2.1 0xff 0xc0 0x00 0x00 (by decide),
   C2_nan_canonical_amended.2.2 0x7f 0xf8 0x00 0x00 0x00 0x00 0x00 0x00 (by decide)⟩

/-- C3: the code evaluated at the failing inputs. The binary32 encoding
fa 3f c0 00 00 carries 1.5, which is losslessly binary16-representable
(witnessed by the binary16 pattern 3e00 decoding to 1.5), yet parseFloat
under validate_canonical succeeds instead of failing with NonMinimalFloat;
likewise fa 38 00 00 00 carries 2^-15, representable as the binary16
subnormal 0200, and also parses successfully. -/
theorem C3_nonminimal_float32_eval :
    parseFloat "fa3fc00000" (some ⟨true⟩) = .ok (.float (.fin (mkRat 3 2)), 5) ∧
    float16ToFloat64 [0x3e, 0x00] 0 = .ok (.fin (mkRat 3 2)) ∧
    parseFloat "fa38000000" (some ⟨true⟩) = .ok (.float (.fin (mkRat 1 32768)), 5) ∧
    float16ToFloat64 [0x02, 0x00] 0 = .ok (.fin (mkRat 1 32768)) := by decide

/-- C4: for every three byte input f9 b1 b2 and every options record, the
float parser returns exactly the IEEE-754 binary16 interpretation of the
big-endian pattern (b1, b2) as stated by the spec formulas, with
bytesRead = 3. -/
theorem C4_float16_decoding (b1 b2 : Byte) (opts : Option ParseOptions) :
    parseFloatFromBuffer [0xf9, b1, b2] 0 opts =
      .ok (.float (float16SpecValue b1 b2), 3) :=
  parseFloat16_spec b1 b2 opts

/-- C5: under validate_canonical, a finite binary64-encoded value that the
binary32 round-trip preserves under Object.is equality fails with the
NonMinimalFloat error, and a nonzero value that no binary16 pattern decodes
to and that the binary32 round-trip does not preserve parses successfully
with bytesRead = 9. -/
theorem C5_nonminimal_float64 :
    (∀ (b1 b2 b3 b4 b5 b6 b7 b8 : Byte) (v : JsNum),
      decodeFloat64 b1 b2 b3 b4 b5 b6 b7 b8 = v →
      jsIsFinite v = true → roundTripF32 v = v →
      parseFloatFromBuffer [0xfb, b1, b2, b3, b4, b5, b6, b7, b8] 0 (some ⟨true⟩) =
        .error "Non-canonical float encoding: value fits in float16/float32") ∧
    (∀ (b1 b2 b3 b4 b5 b6 b7 b8 : Byte) (q : ℚ),
      decodeFloat64 b1 b2 b3 b4 b5 b6 b7 b8 = .fin q → q ≠ 0 →
      (¬ ∃ c1 c2 : Byte, float16ToFloat64 [c1, c2] 0 = .ok (.fin q)) →
      roundToF32 q ≠ .fin q →
      parseFloatFromBuffer [0xfb, b1, b2, b3, b4, b5, b6, b7, b8] 0 (some ⟨true⟩) =
        .ok (.float (.fin q), 9)) :=
  ⟨float64_minimal_fails, float64_wide_parses⟩

/-- C5: witness instantiating both parts: the binary64 encoding of 1.0
(which binary32 preserves) fails, and the binary64 encoding of 2^128
(which overflows binary32 and exceeds every binary16 magnitude) parses. -/
theorem C5_witness :
    parseFloatFromBuffer [0xfb, 0x3f, 0xf0, 0x00, 0x00, 0x00, 0x00, 0x00, 0x00] 0
      (some ⟨true⟩) =
      .error "Non-canonical float encoding: value fits in float16/float32" ∧
    parseFloatFromBuffer [0xfb, 0x47, 0xf0, 0x00, 0x00, 0x00, 0x00, 0x00, 0x00] 0
      (some ⟨true⟩) = .ok (.float (.fin (mkRat (2 ^ 128) 1)), 9) :=
  ⟨C5_nonminimal_float64.1 0x3f 0xf0 0x00 0x00 0x00 0x00 0x00 0x00 (.fin 1)
      (by decide) (by decide) (by decide),
   C5_nonminimal_float64.2 0x47 0xf0 0x00 0x00 0x00 0x00 0x00 0x00
      (mkRat (2 ^ 128) 1) (by decide) (by decide)
      (fun ⟨c1, c2, hc⟩ => absurd (float16_rep_bound c1 c2 _ hc)
        (by rw [Rat.mkRat_eq_div]; norm_num))
      (by decide)⟩

/-- C6: decoding the hex f98000 yields the float negative zero, kept
distinct from positive zero, while f90000 yields positive zero. -/
theorem C6_negative_zero :
    parseFloat "f98000" none = .ok (.float .negZero, 3) ∧
    isNegativeZero .negZero = true ∧
    parseFloat "f90000" none = .ok (.float (.fin 0), 3) ∧
    isNegativeZero (.fin 0) = false := by decide

/-- C7: for major type 7 with ai = 24 the simple parser reads exactly one
following byte, whatever else follows in the buffer: a payload byte below
32 fails with the overlong simple error, any other byte yields a simple
value carrying it with bytesRead = 2. -/
theorem C7_simple_onebyte (b : Byte) (rest : List Byte) :
    parseSimpleFromBuffer (0xf8 :: b :: rest) 0 =
      if b.val < 32 then
        .error ("Invalid 1-byte encoding for simple value " ++ toString b.val)
      else .ok (.simple b.val, 2) :=
  parseSimple24_spec b rest


/-- C8: float and simple parsing is bounds-checked and total: when the
initial byte is out of range, or when the declared payload (1 byte for
ai = 24, 2/4/8 bytes for ai = 25/26/27) extends past the end of the buffer,
parsing fails with the end-of-buffer error; no buffer access outside the
bounds-checked readByte exists in the module, so no out-of-range index is
ever read. -/
theorem C8_bounds_checked :
    (∀ (buffer : List Byte) (offset : ℕ) (opts : Option ParseOptions),
      offset ≥ buffer.length →
      parseSimpleFromBuffer buffer offset = .error "Unexpected end of buffer" ∧
      parseFloatFromBuffer buffer offset opts = .error "Unexpected end of buffer") ∧
    (∀ (buffer : List Byte) (offset : ℕ) (opts : Option ParseOptions)
      (h : offset < buffer.length),
      (extractCborHeader buffer[offset] = (7, 24) → offset + 1 ≥ buffer.length →
        parseSimpleFromBuffer buffer offset =
          .error "Unexpected end of buffer while reading simple value") ∧
      (extractCborHeader buffer[offset] = (7, 25) → offset + 2 ≥ buffer.length →
        parseFloatFromBuffer buffer offset opts =
          .error "Unexpected end of buffer while reading Float16") ∧
      (extractCborHeader buffer[offset] = (7, 26) → offset + 4 ≥ buffer.length →
        parseFloatFromBuffer buffer offset opts =
          .error "Unexpected end of buffer while reading Float32") ∧
      (extractCborHeader buffer[offset] = (7, 27) → offset + 8 ≥ buffer.length →
        parseFloatFromBuffer buffer offset opts =
          .error "Unexpected end of buffer while reading Float64")) :=
  ⟨fun buffer offset opts h =>
    ⟨parseSimple_eof_initial buffer offset h, parseFloat_eof_initial buffer offset opts h⟩,
   fun buffer offset opts h =>
    ⟨fun hh hb => parseSimple24_eof buffer offset h hh hb,
     fun hh hb => parseFloat25_eof buffer offset opts h hh hb,
     fun hh hb => parseFloat26_eof buffer offset opts h hh hb,
     fun hh hb => parseFloat27_eof buffer offset opts h hh hb⟩⟩

/-- C8: witness instantiating the empty buffer case and each truncated
payload case at one byte headers f8, f9, fa, fb. -/
theorem C8_witness :
    parseSimpleFromBuffer [] 0 = .error "Unexpected end of buffer" ∧
    parseFloatFromBuffer [] 0 none = .error "Unexpected end of buffer" ∧
    parseSimpleFromBuffer [0xf8] 0 =
      .error "Unexpected end of buffer while reading simple value" ∧
    parseFloatFromBuffer [0xf9] 0 none =
      .error "Unexpected end of buffer while reading Float16" ∧
    parseFloatFromBuffer [0xfa, 0x3f] 0 none =
      .error "Unexpected end of buffer while reading Float32" ∧
    parseFloatFromBuffer [0xfb, 0x3f, 0xf0] 0 none =
      .error "Unexpected end of buffer while reading Float64" :=
  ⟨(C8_bounds_checked.1 [] 0 none (by decide)).1,
   (C8_bounds_checked.1 [] 0 none (by decide)).2,
   (C8_bounds_checked.2 [0xf8] 0 none (by decide)).1 (by decide) (by decide),
   (C8_bounds_checked.2 [0xf9] 0 none (by decide)).2.1 (by decide) (by decide),
   (C8_bounds_checked.2 [0xfa, 0x3f] 0 none (by decide)).2.2.1 (by decide) (by decide),
   (C8_bounds_checked.2 [0xfb, 0x3f, 0xf0] 0 none (by decide)).2.2.2 (by decide) (by decide)⟩

/-- C9: counterexample to the claim as stated. The truncated simple value
input f8 makes the parser raise an error whose message contains no digit at
all, so it cannot carry the byte offset at which the error was detected,
and it carries no path either: the errors of this module are plain message
strings. -/
theorem C9_counterexample :
    parseSimpleFromBuffer [0xf8] 0 =
      .error "Unexpected end of buffer while reading simple value" ∧
    ("Unexpected end of buffer while reading simple value".toList.all
      fun c => !c.isDigit) = true := by decide

/-- C9 (amended): the errors of the float and simple parsers are fixed
messages determined only by the bytes read, never by the absolute position:
the result of either parser, errors included, is invariant under
translating buffer and offset by an arbitrary common prefix, so no error
carries the byte offset at which it was detected, and none carries a path. -/
theorem C9_errors_carry_no_offset (pre buf : List Byte) (off : ℕ)
    (opts : Option ParseOptions) :
    parseSimpleFromBuffer (pre ++ buf) (pre.length + off) =
      parseSimpleFromBuffer buf off ∧
    parseFloatFromBuffer (pre ++ buf) (pre.length + off) opts =
      parseFloatFromBuffer buf off opts :=
  ⟨parseSimpleFromBuffer_append pre buf off,
   parseFloatFromBuffer_append pre buf off opts⟩


/-! ## Spec-modelled top level decoder (useCborParser is not shipped) -/

/-- Modelled from the spec: the abstract error kinds of the spec taxonomy
(section 7) used by the modelled decoder, plus a marker for fuel exhaustion
of the bounded recursion; otherErr stands for the ill-formed cases to which
the spec assigns no kind (such as a chunk of the wrong major type inside an
indefinite string). -/
inductive ErrKind where
  | unexpectedEof | invalidHex | reservedAi | unexpectedBreak | missingBreak
  | breakInsideMapPair | indefiniteDisallowed | depthExceeded | arrayTooLarge
  | mapTooLarge | outputTooLarge | overlongSimple | nonMinimalFloat
  | nonCanonicalNaN | nestedIndefinite | stringTooLong | invalidUtf8
  | bignumTooLarge | unknownTag | tagShapeMismatch | plutusShapeMismatch
  | nonCanonicalKeyOrder | duplicateKey | otherErr | fuelOut
deriving DecidableEq, Repr

/-- Modelled from the spec: map the message strings of the embedded
Major-Type-7 module onto the spec error kinds. -/
def classifyFloatErr (msg : String) : ErrKind :=
  if msg.startsWith "Unexpected end of buffer" then .unexpectedEof
  else if msg.startsWith "Invalid 1-byte encoding" then .overlongSimple
  else if msg = "Non-canonical NaN encoding: use float16 NaN" then .nonCanonicalNaN
  else if msg.startsWith "Non-canonical float encoding" then .nonMinimalFloat
  else if msg.startsWith "Reserved additional info" then .reservedAi
  else if msg.startsWith "Break marker" then .unexpectedBreak
  else .otherErr

/-- Modelled from the spec: the parse options of section 4.3 (the spec
names the recognized options; the default values are model choices, the
shipped sources do not include the DEFAULT_LIMITS record). timeout_ms is
not modelled: the model has no clock, and wall-clock behavior is outside
every claim. -/
structure DecodeOptions where
  maxDepth : ℕ := 128
  maxArrayLength : ℕ := 65536
  maxMapSize : ℕ := 65536
  maxByteStringLength : ℕ := 65536
  maxTextStringLength : ℕ := 65536
  maxBignumBytes : ℕ := 1024
  maxOutputSize : ℕ := 10000000
  allowIndefinite : Bool := true
  validateCanonical : Bool := false
  strictUtf8 : Bool := false
  strictTags : Bool := false
deriving DecidableEq, Repr

/-- Modelled from the spec: decoded values of the modelled decoder
(section 3): unsigned integers, negative integers as -1 - n, byte strings
and text strings as their (concatenated) content bytes, definite and
indefinite arrays and maps, opaque tagged values, Plutus constructors, and
Major-Type-7 leaves. Bignums surface as arbitrary-precision integers; the
optional chunk lists of indefinite strings are not carried, only the
concatenated content. -/
inductive MVal where
  | uint (n : ℕ)
  | nint (n : ℕ)
  | bytes (content : List Byte)
  | text (content : List Byte)
  | arr (items : List MVal) (indefinite : Bool)
  | mp (entries : List (MVal × MVal)) (indefinite : Bool)
  | tagged (t : ℕ) (inner : MVal)
  | pconstr (idx : ℕ) (fields : List MVal)
  | leaf (v : CborVal)

/-- Modelled from the spec: a source-map entry carrying path, byte range,
major type and parent path (section 4.7; children are recoverable from the
paths, value_repr is omitted). -/
structure SMEntry where
  path : String
  start : ℕ
  stop : ℕ
  majorType : ℕ
  parent : String
deriving DecidableEq, Repr

/-- Modelled from the spec: bounds-checked read failing with the
UnexpectedEof kind. -/
def readByteK (buffer : List Byte) (offset : ℕ) : Except ErrKind Byte :=
  if h : offset < buffer.length then .ok buffer[offset] else .error .unexpectedEof

/-- Modelled from the spec: big-endian unsigned integer read of the given
width (section 4.1). -/
def readBE (buffer : List Byte) (offset : ℕ) : ℕ → Except ErrKind ℕ
  | 0 => .ok 0
  | w + 1 => do
    let b ← readByteK buffer offset
    let rest ← readBE buffer (offset + 1) w
    .ok (b.val * 256 ^ w + rest)

/-- Modelled from the spec: read the argument selected by the additional
info (0..23 direct; 24/25/26/27 a 1/2/4/8 byte follow; 28..30 reserved;
a bare 31 reaching an argument position is also rejected, the spec calls
it illegal outside collection framing without naming a kind). Returns the
argument and the number of argument bytes. -/
def parseArgK (buffer : List Byte) (offset : ℕ) (ai : ℕ) : Except ErrKind (ℕ × ℕ) :=
  if ai < 24 then .ok (ai, 0)
  else if ai = 24 then (readBE buffer (offset + 1) 1).map fun n => (n, 1)
  else if ai = 25 then (readBE buffer (offset + 1) 2).map fun n => (n, 2)
  else if ai = 26 then (readBE buffer (offset + 1) 4).map fun n => (n, 4)
  else if ai = 27 then (readBE buffer (offset + 1) 8).map fun n => (n, 8)
  else .error .reservedAi

/-- Modelled from the spec: account the bytes consumed by a non-collection
value against max_output_size and deliver the value (section 4.3). -/
def finishVal (opts : DecodeOptions) (v : MVal) (startOffset newOffset outSz : ℕ) :
    Except ErrKind (MVal × ℕ × ℕ) :=
  let sz := outSz + (newOffset - startOffset)
  if sz > opts.maxOutputSize then .error .outputTooLarge else .ok (v, newOffset, sz)

/-- Modelled from the spec: while awaiting a break byte, running out of input is a
missing-break error rather than a plain EOF. -/
def orBreakErr {α : Type} (x : Except ErrKind α) : Except ErrKind α :=
  match x with
  | .error _ => .error .missingBreak
  | .ok a => .ok a

/-- Modelled from the spec: bounds-checked read of len bytes starting at
offset, failing with UnexpectedEof when the range leaves the buffer. -/
def readSlice (buffer : List Byte) (offset len : ℕ) : Except ErrKind (List Byte) :=
  if offset + len ≤ buffer.length then .ok ((buffer.drop offset).take len)
  else .error .unexpectedEof

/-- Modelled from the spec: the raw encoded byte slice of a value parsed
from offset a up to (excluding) offset b, as captured during parse for the
map-key comparisons of section 4.5. -/
def keySlice (buffer : List Byte) (a b : ℕ) : List Byte := (buffer.drop a).take (b - a)

/-- Modelled from the spec: bytewise ascending lexicographic comparison of
two equal-length encodings (section 4.5). -/
def bytesLexLt : List Byte → List Byte → Bool
  | [], [] => false
  | [], _ :: _ => true
  | _ :: _, [] => false
  | x :: xs, y :: ys =>
    if x.val < y.val then true
    else if y.val < x.val then false
    else bytesLexLt xs ys

/-- Modelled from the spec: strict length-lexicographic order on encoded
keys, shorter encoding first, equal length compared bytewise ascending
(section 4.5). -/
def keyLt (a b : List Byte) : Bool :=
  if a.length < b.length then true
  else if b.length < a.length then false
  else bytesLexLt a b

/-- Modelled from the spec: the canonical-order check for the next key
slice against the most recently seen key slice (section 4.5); with no
previous key any slice is in order. -/
def keyOrderOk (seen : List (List Byte)) (s : List Byte) : Bool :=
  match seen with
  | [] => true
  | p :: _ => keyLt p s

/-- Modelled from the spec: RFC 3629 UTF-8 validity of a byte sequence,
rejecting continuation-less leads, overlong forms, surrogates and values
above U+10FFFF, for the strict_utf8 text-string rule (section 4.4). -/
def utf8Valid : List Byte → Bool
  | [] => true
  | b :: rest =>
    if b.val ≤ 0x7f then utf8Valid rest
    else if b.val ≤ 0xc1 then false
    else if b.val ≤ 0xdf then
      match rest with
      | c1 :: rest2 =>
        (if 0x80 ≤ c1.val ∧ c1.val ≤ 0xbf then utf8Valid rest2 else false)
      | [] => false
    else if b.val ≤ 0xef then
      match rest with
      | c1 :: c2 :: rest2 =>
        (if (if b.val = 0xe0 then 0xa0 ≤ c1.val ∧ c1.val ≤ 0xbf
             else if b.val = 0xed then 0x80 ≤ c1.val ∧ c1.val ≤ 0x9f
             else 0x80 ≤ c1.val ∧ c1.val ≤ 0xbf) ∧
            (0x80 ≤ c2.val ∧ c2.val ≤ 0xbf) then utf8Valid rest2 else false)
      | _ => false
    else if b.val ≤ 0xf4 then
      match rest with
      | c1 :: c2 :: c3 :: rest2 =>
        (if (if b.val = 0xf0 then 0x90 ≤ c1.val ∧ c1.val ≤ 0xbf
             else if b.val = 0xf4 then 0x80 ≤ c1.val ∧ c1.val ≤ 0x8f
             else 0x80 ≤ c1.val ∧ c1.val ≤ 0xbf) ∧
            (0x80 ≤ c2.val ∧ c2.val ≤ 0xbf) ∧ (0x80 ≤ c3.val ∧ c3.val ≤ 0xbf)
         then utf8Valid rest2 else false)
      | _ => false
    else false

/-- Modelled from the spec: big-endian unsigned magnitude of a bignum
payload (section 4.6, tags 2 and 3). -/
def beNat (content : List Byte) : ℕ := content.foldl (fun acc b => acc * 256 + b.val) 0

/-- Modelled from the spec: whether a decoded value is an integer, for the
shape checks of the tag table (section 4.6). -/
def isIntV : MVal → Bool
  | .uint _ => true
  | .nint _ => true
  | _ => false

mutual

/-- Modelled from the spec: structural equality of decoded values, bounded
by fuel so that it stays computable by the kernel; the tag dispatcher calls
it with fuel derived from the encoded size of the value, which bounds its
structural depth. Used to model the duplicate-element rule of tag 258,
whose byte slices coincide with structural equality for deterministic
encodings. -/
def mvalBeqF : ℕ → MVal → MVal → Bool
  | 0, _, _ => false
  | fz + 1, a, b =>
    match a, b with
    | .uint x, .uint y => x == y
    | .nint x, .nint y => x == y
    | .bytes x, .bytes y => x == y
    | .text x, .text y => x == y
    | .arr xs ix, .arr ys iy => ix == iy && mvalListBeqF fz xs ys
    | .mp xs ix, .mp ys iy => ix == iy && mvalPairsBeqF fz xs ys
    | .tagged t v, .tagged u w => t == u && mvalBeqF fz v w
    | .pconstr i fs, .pconstr j gs => i == j && mvalListBeqF fz fs gs
    | .leaf x, .leaf y => x == y
    | _, _ => false

termination_by structural fz _ _ => fz

/-- Modelled from the spec: fueled list lifting of mvalBeqF. -/
def mvalListBeqF : ℕ → List MVal → List MVal → Bool
  | 0, _, _ => false
  | _ + 1, [], [] => true
  | fz + 1, x :: xs, y :: ys => mvalBeqF fz x y && mvalListBeqF fz xs ys
  | _ + 1, _, _ => false

termination_by structural fz _ _ => fz

/-- Modelled from the spec: fueled pair-list lifting of mvalBeqF. -/
def mvalPairsBeqF : ℕ → List (MVal × MVal) → List (MVal × MVal) → Bool
  | 0, _, _ => false
  | _ + 1, [], [] => true
  | fz + 1, x :: xs, y :: ys =>
    mvalBeqF fz x.1 y.1 && mvalBeqF fz x.2 y.2 && mvalPairsBeqF fz xs ys
  | _ + 1, _, _ => false

termination_by structural fz _ _ => fz

end

/-- Modelled from the spec: no two elements of the list are equal under the
fueled structural equality (the tag 258 set rule, section 4.6). -/
def mvalNoDupF (fz : ℕ) : List MVal → Bool
  | [] => true
  | x :: xs => xs.all (fun y => !(mvalBeqF fz x y)) && mvalNoDupF fz xs

/-- Modelled from the spec: the tag dispatcher validation table of section
4.6, run on the already-parsed inner value; fz bounds the structural
recursion of the tag 258 duplicate check. Content-level validations that
section 4.6 leaves configurable (the RFC 3339 shape of tag 0, URI, base64
and MIME syntax of tags 32-36) are modelled at their lax setting: the
inner value must have the prescribed shape (text, integer-or-float, byte
string, 2-element array, array), and shape violations fail with
TagShapeMismatch or PlutusShapeMismatch; bignums convert with the
max_bignum_bytes ceiling; unknown tags pass through as opaque tagged
values unless strict_tags is set, in which case they fail with UnknownTag. -/
def tagValidate (opts : DecodeOptions) (fz t : ℕ) (v : MVal) : Except ErrKind MVal :=
  if t = 0 then
    match v with
    | .text _ => .ok (.tagged t v)
    | _ => .error .tagShapeMismatch
  else if t = 1 then
    match v with
    | .uint _ => .ok (.tagged t v)
    | .nint _ => .ok (.tagged t v)
    | .leaf (.float _) => .ok (.tagged t v)
    | _ => .error .tagShapeMismatch
  else if t = 2 ∨ t = 3 then
    match v with
    | .bytes content =>
      if content.length > opts.maxBignumBytes then .error .bignumTooLarge
      else if t = 2 then .ok (.uint (beNat content))
      else .ok (.nint (beNat content))
    | _ => .error .tagShapeMismatch
  else if t = 4 ∨ t = 5 then
    match v with
    | .arr [e, m] _ =>
      if isIntV e && isIntV m then .ok (.tagged t v) else .error .tagShapeMismatch
    | _ => .error .tagShapeMismatch
  else if 32 ≤ t ∧ t ≤ 36 then
    match v with
    | .text _ => .ok (.tagged t v)
    | _ => .error .tagShapeMismatch
  else if t = 258 then
    match v with
    | .arr items _ =>
      if mvalNoDupF fz items then .ok (.tagged t v) else .error .tagShapeMismatch
    | _ => .error .tagShapeMismatch
  else if t = 102 then
    match v with
    | .arr [.uint idx, .arr fields _] _ => .ok (.pconstr idx fields)
    | _ => .error .plutusShapeMismatch
  else if 121 ≤ t ∧ t ≤ 127 then
    match v with
    | .arr fields _ => .ok (.pconstr (t - 121) fields)
    | _ => .error .plutusShapeMismatch
  else if 1280 ≤ t ∧ t ≤ 1400 then
    match v with
    | .arr fields _ => .ok (.pconstr (t - 1280 + 7) fields)
    | _ => .error .plutusShapeMismatch
  else if opts.strictTags then .error .unknownTag
  else .ok (.tagged t v)

/-- Modelled from the spec: the definite-length chunk loop of an indefinite
byte or text string (section 4.4): zero or more definite chunks of the same
major type mj until the break byte, concatenated; a nested indefinite chunk
fails with NestedIndefinite; a chunk of the wrong major type is ill-formed
(the spec names no kind); a buffer exhausted without a break fails with
MissingBreak. -/
def mParseChunks (buffer : List Byte) (mj : ℕ) :
    ℕ → ℕ → Except ErrKind (List Byte × ℕ)
  | 0, _ => .error .fuelOut
  | fuel + 1, offset => do
    let b ← orBreakErr (readByteK buffer offset)
    if b.val = 0xff then .ok ([], offset + 1)
    else
      let header := extractCborHeader b
      if header.1 = mj then
        if header.2 = 31 then .error .nestedIndefinite
        else do
          let a ← parseArgK buffer offset header.2
          let chunk ← readSlice buffer (offset + 1 + a.2) a.1
          let rest ← mParseChunks buffer mj fuel (offset + 1 + a.2 + a.1)
          .ok (chunk ++ rest.1, rest.2)
      else .error .otherErr

termination_by structural fuel _ => fuel

/-- Modelled from the spec: the content bytes and end offset of a byte or
text string headed at offset (section 4.4): definite form reads the length
argument and that many bytes; indefinite form (ai = 31) requires
allow_indefinite and concatenates definite chunks until the break. Shared
verbatim by the direct and the source-map paths. -/
def mParseStringContent (opts : DecodeOptions) (buffer : List Byte)
    (mj fuel offset ai : ℕ) : Except ErrKind (List Byte × ℕ) :=
  if ai = 31 then
    if opts.allowIndefinite = false then .error .indefiniteDisallowed
    else mParseChunks buffer mj fuel (offset + 1)
  else do
    let a ← parseArgK buffer offset ai
    let content ← readSlice buffer (offset + 1 + a.2) a.1
    .ok (content, offset + 1 + a.2 + a.1)

mutual

/-- Modelled from the spec: the recursive decoder over all eight major
types, enforcing max_depth, max_array_length, max_map_size,
max_byte_string_length, max_text_string_length, max_bignum_bytes,
max_output_size, allow_indefinite, the break requirements, strict_utf8,
strict_tags, the section 4.5 canonical key order and duplicate-key rules
and, through the embedded Major-Type-7 module, the canonical float rules.
Recursion is bounded by explicit fuel; the top level supplies enough fuel
for any input of the buffer length. -/
def mParseVal (opts : DecodeOptions) (buffer : List Byte) :
    ℕ → ℕ → ℕ → ℕ → Except ErrKind (MVal × ℕ × ℕ)
  | 0, _, _, _ => .error .fuelOut
  | fuel + 1, offset, depth, outSz => do
    let initialByte ← readByteK buffer offset
    let header := extractCborHeader initialByte
    if header.1 = 0 then do
      let a ← parseArgK buffer offset header.2
      finishVal opts (.uint a.1) offset (offset + 1 + a.2) outSz
    else if header.1 = 1 then do
      let a ← parseArgK buffer offset header.2
      finishVal opts (.nint a.1) offset (offset + 1 + a.2) outSz
    else if header.1 = 2 then do
      let c ← mParseStringContent opts buffer 2 fuel offset header.2
      if c.1.length > opts.maxByteStringLength then .error .stringTooLong
      else finishVal opts (.bytes c.1) offset c.2 outSz
    else if header.1 = 3 then do
      let c ← mParseStringContent opts buffer 3 fuel offset header.2
      if c.1.length > opts.maxTextStringLength then .error .stringTooLong
      else if opts.strictUtf8 && !(utf8Valid c.1) then .error .invalidUtf8
      else finishVal opts (.text c.1) offset c.2 outSz
    else if header.1 = 4 then
      if depth + 1 > opts.maxDepth then .error .depthExceeded
      else if header.2 = 31 then
        if opts.allowIndefinite = false then .error .indefiniteDisallowed
        else do
          let r ← mParseIndefItems opts buffer fuel (offset + 1) (depth + 1) outSz 0
          .ok (.arr r.1 true, r.2.1, r.2.2)
      else do
        let a ← parseArgK buffer offset header.2
        if a.1 > opts.maxArrayLength then .error .arrayTooLarge
        else do
          let r ← mParseItems opts buffer fuel a.1 (offset + 1 + a.2) (depth + 1) outSz
          .ok (.arr r.1 false, r.2.1, r.2.2)
    else if header.1 = 5 then
      if depth + 1 > opts.maxDepth then .error .depthExceeded
      else if header.2 = 31 then
        if opts.allowIndefinite = false then .error .indefiniteDisallowed
        else do
          let r ← mParseIndefPairs opts buffer fuel (offset + 1) (depth + 1) outSz 0 []
          .ok (.mp r.1 true, r.2.1, r.2.2)
      else do
        let a ← parseArgK buffer offset header.2
        if a.1 > opts.maxMapSize then .error .mapTooLarge
        else do
          let r ← mParsePairs opts buffer fuel a.1 (offset + 1 + a.2) (depth + 1) outSz []
          .ok (.mp r.1 false, r.2.1, r.2.2)
    else if header.1 = 6 then
      if depth + 1 > opts.maxDepth then .error .depthExceeded
      else do
        let a ← parseArgK buffer offset header.2
        let r ← mParseVal opts buffer fuel (offset + 1 + a.2) (depth + 1) outSz
        let v ← tagValidate opts (r.2.1 - offset) a.1 r.1
        .ok (v, r.2.1, r.2.2)
    else if header.1 = 7 then
      match parseFromBuffer buffer offset (some ⟨opts.validateCanonical⟩) with
      | .error msg => .error (classifyFloatErr msg)
      | .ok r => finishVal opts (.leaf r.1) offset (offset + r.2) outSz
    else .error .otherErr

termination_by structural fuel _ _ _ => fuel

/-- Modelled from the spec: parse exactly n items of a definite array. -/
def mParseItems (opts : DecodeOptions) (buffer : List Byte) :
    ℕ → ℕ → ℕ → ℕ → ℕ → Except ErrKind (List MVal × ℕ × ℕ)
  | 0, _, _, _, _ => .error .fuelOut
  | _ + 1, 0, offset, _, outSz => .ok ([], offset, outSz)
  | fuel + 1, k + 1, offset, depth, outSz => do
    let r ← mParseVal opts buffer fuel offset depth outSz
    let rs ← mParseItems opts buffer fuel k r.2.1 depth r.2.2
    .ok (r.1 :: rs.1, rs.2.1, rs.2.2)

termination_by structural fuel _ _ _ _ => fuel

/-- Modelled from the spec: parse streamed items of an indefinite array
until the break byte, counting each item against max_array_length; a
buffer exhausted without a break fails with MissingBreak. -/
def mParseIndefItems (opts : DecodeOptions) (buffer : List Byte) :
    ℕ → ℕ → ℕ → ℕ → ℕ → Except ErrKind (List MVal × ℕ × ℕ)
  | 0, _, _, _, _ => .error .fuelOut
  | fuel + 1, offset, depth, outSz, count => do
    let b ← orBreakErr (readByteK buffer offset)
    if b.val = 0xff then .ok ([], offset + 1, outSz)
    else if count + 1 > opts.maxArrayLength then .error .arrayTooLarge
    else do
      let r ← mParseVal opts buffer fuel offset depth outSz
      let rs ← mParseIndefItems opts buffer fuel r.2.1 depth r.2.2 (count + 1)
      .ok (r.1 :: rs.1, rs.2.1, rs.2.2)

termination_by structural fuel _ _ _ _ => fuel

/-- Modelled from the spec: parse exactly n key-value pairs of a definite
map, threading the raw encoded slices of the keys already seen (most
recent first). In canonical mode each key must exceed its predecessor in
strict length-lexicographic order of the encoded slice, else
NonCanonicalKeyOrder (section 4.5 prescribes comparing recomputed
canonical encodings, which coincide with the captured slices exactly when
the keys are canonically encoded; the comparison used here is the same on
both decoding paths); a key whose slice was already seen fails with
DuplicateKey in every mode. -/
def mParsePairs (opts : DecodeOptions) (buffer : List Byte) :
    ℕ → ℕ → ℕ → ℕ → ℕ → List (List Byte) →
      Except ErrKind (List (MVal × MVal) × ℕ × ℕ)
  | 0, _, _, _, _, _ => .error .fuelOut
  | _ + 1, 0, offset, _, outSz, _ => .ok ([], offset, outSz)
  | fuel + 1, k + 1, offset, depth, outSz, seen => do
    let rk ← mParseVal opts buffer fuel offset depth outSz
    let ks := keySlice buffer offset rk.2.1
    if opts.validateCanonical && !(keyOrderOk seen ks) then .error .nonCanonicalKeyOrder
    else if seen.contains ks then .error .duplicateKey
    else do
      let rv ← mParseVal opts buffer fuel rk.2.1 depth rk.2.2
      let rs ← mParsePairs opts buffer fuel k rv.2.1 depth rv.2.2 (ks :: seen)
      .ok ((rk.1, rv.1) :: rs.1, rs.2.1, rs.2.2)

termination_by structural fuel _ _ _ _ _ => fuel

/-- Modelled from the spec: parse streamed pairs of an indefinite map
until the break byte, counting pairs against max_map_size and applying the
same section 4.5 key-slice checks as the definite form; a break between a
key and its value fails with BreakInsideMapPair; a buffer exhausted
without a break fails with MissingBreak. -/
def mParseIndefPairs (opts : DecodeOptions) (buffer : List Byte) :
    ℕ → ℕ → ℕ → ℕ → ℕ → List (List Byte) →
      Except ErrKind (List (MVal × MVal) × ℕ × ℕ)
  | 0, _, _, _, _, _ => .error .fuelOut
  | fuel + 1, offset, depth, outSz, count, seen => do
    let b ← orBreakErr (readByteK buffer offset)
    if b.val = 0xff then .ok ([], offset + 1, outSz)
    else if count + 1 > opts.maxMapSize then .error .mapTooLarge
    else do
      let rk ← mParseVal opts buffer fuel offset depth outSz
      let ks := keySlice buffer offset rk.2.1
      if opts.validateCanonical && !(keyOrderOk seen ks) then .error .nonCanonicalKeyOrder
      else if seen.contains ks then .error .duplicateKey
      else do
        let b2 ← readByteK buffer rk.2.1
        if b2.val = 0xff then .error .breakInsideMapPair
        else do
          let rv ← mParseVal opts buffer fuel rk.2.1 depth rk.2.2
          let rs ← mParseIndefPairs opts buffer fuel rv.2.1 depth rv.2.2 (count + 1)
            (ks :: seen)
          .ok ((rk.1, rv.1) :: rs.1, rs.2.1, rs.2.2)
termination_by structural fuel _ _ _ _ _ => fuel

end


/-! ## Spec-modelled source-map decoding mode -/

/-- Modelled from the spec: path of the i-th array child. -/
def pathIdx (path : String) (i : ℕ) : String := path ++ "[" ++ toString i ++ "]"

/-- Modelled from the spec: a bounded diagnostic label for a map key. -/
def mDiagShallow : MVal → String
  | .uint n => toString n
  | .nint n => "-" ++ toString (n + 1)
  | .bytes _ => "bytes"
  | .text _ => "text"
  | .arr _ _ => "array"
  | .mp _ _ => "map"
  | .tagged _ _ => "tag"
  | .pconstr _ _ => "constr"
  | .leaf _ => "simple"

/-- Modelled from the spec: path of the map child keyed by k (the modelled
fragment has no text strings, so the diagnostic bracket form is used). -/
def pathKey (path : String) (k : MVal) : String := path ++ "[" ++ mDiagShallow k ++ "]"

/-- Modelled from the spec: path of the i-th map key itself. -/
def pathKeyIdx (path : String) (i : ℕ) : String := path ++ "[" ++ toString i ++ "<key>]"

/-- Modelled from the spec: path of the inner value of a tag (the spec
scenario for d87980 labels the tagged child .value). -/
def pathTag (path : String) : String := path ++ ".value"

/-- Source-map variant of finishVal: same output accounting, one entry. -/
def finishValM (opts : DecodeOptions) (v : MVal) (startOffset newOffset outSz : ℕ)
    (path parent : String) (major : ℕ) :
    Except ErrKind (MVal × ℕ × ℕ × List SMEntry) :=
  let sz := outSz + (newOffset - startOffset)
  if sz > opts.maxOutputSize then .error .outputTooLarge
  else .ok (v, newOffset, sz,
    [{ path := path, start := startOffset, stop := newOffset, majorType := major,
       parent := parent }])

mutual

/-- Modelled from the spec: the source-map decoding mode, a parallel
implementation of mParseVal that additionally threads the path and emits
entries in pre-order, enforcing the same limits (section 4.7). -/
def mParseValM (opts : DecodeOptions) (buffer : List Byte) :
    ℕ → ℕ → ℕ → ℕ → String → String → Except ErrKind (MVal × ℕ × ℕ × List SMEntry)
  | 0, _, _, _, _, _ => .error .fuelOut
  | fuel + 1, offset, depth, outSz, path, parent => do
    let initialByte ← readByteK buffer offset
    let header := extractCborHeader initialByte
    if header.1 = 0 then do
      let a ← parseArgK buffer offset header.2
      finishValM opts (.uint a.1) offset (offset + 1 + a.2) outSz path parent 0
    else if header.1 = 1 then do
      let a ← parseArgK buffer offset header.2
      finishValM opts (.nint a.1) offset (offset + 1 + a.2) outSz path parent 1
    else if header.1 = 2 then do
      let c ← mParseStringContent opts buffer 2 fuel offset header.2
      if c.1.length > opts.maxByteStringLength then .error .stringTooLong
      else finishValM opts (.bytes c.1) offset c.2 outSz path parent 2
    else if header.1 = 3 then do
      let c ← mParseStringContent opts buffer 3 fuel offset header.2
      if c.1.length > opts.maxTextStringLength then .error .stringTooLong
      else if opts.strictUtf8 && !(utf8Valid c.1) then .error .invalidUtf8
      else finishValM opts (.text c.1) offset c.2 outSz path parent 3
    else if header.1 = 4 then
      if depth + 1 > opts.maxDepth then .error .depthExceeded
      else if header.2 = 31 then
        if opts.allowIndefinite = false then .error .indefiniteDisallowed
        else do
          let r ← mParseIndefItemsM opts buffer fuel (offset + 1) (depth + 1) outSz 0 path
          .ok (.arr r.1 true, r.2.1, r.2.2.1,
            { path := path, start := offset, stop := r.2.1, majorType := 4,
              parent := parent } :: r.2.2.2)
      else do
        let a ← parseArgK buffer offset header.2
        if a.1 > opts.maxArrayLength then .error .arrayTooLarge
        else do
          let r ← mParseItemsM opts buffer fuel a.1 (offset + 1 + a.2) (depth + 1) outSz path 0
          .ok (.arr r.1 false, r.2.1, r.2.2.1,
            { path := path, start := offset, stop := r.2.1, majorType := 4,
              parent := parent } :: r.2.2.2)
    else if header.1 = 5 then
      if depth + 1 > opts.maxDepth then .error .depthExceeded
      else if header.2 = 31 then
        if opts.allowIndefinite = false then .error .indefiniteDisallowed
        else do
          let r ← mParseIndefPairsM opts buffer fuel (offset + 1) (depth + 1) outSz 0 path []
          .ok (.mp r.1 true, r.2.1, r.2.2.1,
            { path := path, start := offset, stop := r.2.1, majorType := 5,
              parent := parent } :: r.2.2.2)
      else do
        let a ← parseArgK buffer offset header.2
        if a.1 > opts.maxMapSize then .error .mapTooLarge
        else do
          let r ← mParsePairsM opts buffer fuel a.1 (offset + 1 + a.2) (depth + 1) outSz path 0 []
          .ok (.mp r.1 false, r.2.1, r.2.2.1,
            { path := path, start := offset, stop := r.2.1, majorType := 5,
              parent := parent } :: r.2.2.2)
    else if header.1 = 6 then
      if depth + 1 > opts.maxDepth then .error .depthExceeded
      else do
        let a ← parseArgK buffer offset header.2
        let r ← mParseValM opts buffer fuel (offset + 1 + a.2) (depth + 1) outSz
          (pathTag path) path
        let v ← tagValidate opts (r.2.1 - offset) a.1 r.1
        .ok (v, r.2.1, r.2.2.1,
          { path := path, start := offset, stop := r.2.1, majorType := 6,
            parent := parent } :: r.2.2.2)
    else if header.1 = 7 then
      match parseFromBuffer buffer offset (some ⟨opts.validateCanonical⟩) with
      | .error msg => .error (classifyFloatErr msg)
      | .ok r => finishValM opts (.leaf r.1) offset (offset + r.2) outSz path parent 7
    else .error .otherErr

termination_by structural fuel _ _ _ _ _ => fuel

/-- Source-map variant of mParseItems, numbering children from i. -/
def mParseItemsM (opts : DecodeOptions) (buffer : List Byte) :
    ℕ → ℕ → ℕ → ℕ → ℕ → String → ℕ → Except ErrKind (List MVal × ℕ × ℕ × List SMEntry)
  | 0, _, _, _, _, _, _ => .error .fuelOut
  | _ + 1, 0, offset, _, outSz, _, _ => .ok ([], offset, outSz, [])
  | fuel + 1, k + 1, offset, depth, outSz, path, i => do
    let r ← mParseValM opts buffer fuel offset depth outSz (pathIdx path i) path
    let rs ← mParseItemsM opts buffer fuel k r.2.1 depth r.2.2.1 path (i + 1)
    .ok (r.1 :: rs.1, rs.2.1, rs.2.2.1, r.2.2.2 ++ rs.2.2.2)

termination_by structural fuel _ _ _ _ _ _ => fuel

/-- Source-map variant of mParseIndefItems. -/
def mParseIndefItemsM (opts : DecodeOptions) (buffer : List Byte) :
    ℕ → ℕ → ℕ → ℕ → ℕ → String → Except ErrKind (List MVal × ℕ × ℕ × List SMEntry)
  | 0, _, _, _, _, _ => .error .fuelOut
  | fuel + 1, offset, depth, outSz, count, path => do
    let b ← orBreakErr (readByteK buffer offset)
    if b.val = 0xff then .ok ([], offset + 1, outSz, [])
    else if count + 1 > opts.maxArrayLength then .error .arrayTooLarge
    else do
      let r ← mParseValM opts buffer fuel offset depth outSz (pathIdx path count) path
      let rs ← mParseIndefItemsM opts buffer fuel r.2.1 depth r.2.2.1 (count + 1) path
      .ok (r.1 :: rs.1, rs.2.1, rs.2.2.1, r.2.2.2 ++ rs.2.2.2)

termination_by structural fuel _ _ _ _ _ => fuel

/-- Source-map variant of mParsePairs, numbering keys from i. -/
def mParsePairsM (opts : DecodeOptions) (buffer : List Byte) :
    ℕ → ℕ → ℕ → ℕ → ℕ → String → ℕ → List (List Byte) →
      Except ErrKind (List (MVal × MVal) × ℕ × ℕ × List SMEntry)
  | 0, _, _, _, _, _, _, _ => .error .fuelOut
  | _ + 1, 0, offset, _, outSz, _, _, _ => .ok ([], offset, outSz, [])
  | fuel + 1, k + 1, offset, depth, outSz, path, i, seen => do
    let rk ← mParseValM opts buffer fuel offset depth outSz (pathKeyIdx path i) path
    let ks := keySlice buffer offset rk.2.1
    if opts.validateCanonical && !(keyOrderOk seen ks) then .error .nonCanonicalKeyOrder
    else if seen.contains ks then .error .duplicateKey
    else do
      let rv ← mParseValM opts buffer fuel rk.2.1 depth rk.2.2.1 (pathKey path rk.1) path
      let rs ← mParsePairsM opts buffer fuel k rv.2.1 depth rv.2.2.1 path (i + 1)
        (ks :: seen)
      .ok ((rk.1, rv.1) :: rs.1, rs.2.1, rs.2.2.1, rk.2.2.2 ++ rv.2.2.2 ++ rs.2.2.2)

termination_by structural fuel _ _ _ _ _ _ _ => fuel

/-- Source-map variant of mParseIndefPairs. -/
def mParseIndefPairsM (opts : DecodeOptions) (buffer : List Byte) :
    ℕ → ℕ → ℕ → ℕ → ℕ → String → List (List Byte) →
      Except ErrKind (List (MVal × MVal) × ℕ × ℕ × List SMEntry)
  | 0, _, _, _, _, _, _ => .error .fuelOut
  | fuel + 1, offset, depth, outSz, count, path, seen => do
    let b ← orBreakErr (readByteK buffer offset)
    if b.val = 0xff then .ok ([], offset + 1, outSz, [])
    else if count + 1 > opts.maxMapSize then .error .mapTooLarge
    else do
      let rk ← mParseValM opts buffer fuel offset depth outSz (pathKeyIdx path count) path
      let ks := keySlice buffer offset rk.2.1
      if opts.validateCanonical && !(keyOrderOk seen ks) then .error .nonCanonicalKeyOrder
      else if seen.contains ks then .error .duplicateKey
      else do
        let b2 ← readByteK buffer rk.2.1
        if b2.val = 0xff then .error .breakInsideMapPair
        else do
          let rv ← mParseValM opts buffer fuel rk.2.1 depth rk.2.2.1 (pathKey path rk.1) path
          let rs ← mParseIndefPairsM opts buffer fuel rv.2.1 depth rv.2.2.1 (count + 1) path
            (ks :: seen)
          .ok ((rk.1, rv.1) :: rs.1, rs.2.1, rs.2.2.1, rk.2.2.2 ++ rv.2.2.2 ++ rs.2.2.2)
termination_by structural fuel _ _ _ _ _ _ => fuel

end


/-- Drop the source-map component of a result. -/
def plain4 {α : Type} (r : α × ℕ × ℕ × List SMEntry) : α × ℕ × ℕ := (r.1, r.2.1, r.2.2.1)

/-- Drop the source-map component of a parse outcome, keeping the error. -/
def plainE {α : Type} (x : Except ErrKind (α × ℕ × ℕ × List SMEntry)) :
    Except ErrKind (α × ℕ × ℕ) := x.map plain4

@[simp] theorem plainE_error {α : Type} (e : ErrKind) :
    plainE (α := α) (.error e) = .error e := rfl

@[simp] theorem plainE_ok {α : Type} (r : α × ℕ × ℕ × List SMEntry) :
    plainE (.ok r) = .ok (plain4 r) := rfl

@[simp] theorem plain4_mk {α : Type} (a : α) (b c : ℕ) (d : List SMEntry) :
    plain4 (a, b, c, d) = (a, b, c) := rfl

@[simp] theorem orBreakErr_ok {α : Type} (a : α) : orBreakErr (.ok a) = .ok a := rfl

@[simp] theorem orBreakErr_error {α : Type} (e : ErrKind) :
    orBreakErr (α := α) (.error e) = .error .missingBreak := rfl

theorem plainE_finishValM (opts : DecodeOptions) (v : MVal) (s n o : ℕ)
    (p pr : String) (mj : ℕ) :
    plainE (finishValM opts v s n o p pr mj) = finishVal opts v s n o := by
  rw [finishValM, finishVal]
  by_cases h : o + (n - s) > opts.maxOutputSize
  · rw [if_pos h, if_pos h, plainE_error]
  · rw [if_neg h, if_neg h, plainE_ok, plain4_mk]

theorem mParse_plain (opts : DecodeOptions) (buffer : List Byte) : ∀ fuel : ℕ,
    (∀ offset depth outSz path parent,
      plainE (mParseValM opts buffer fuel offset depth outSz path parent) =
        mParseVal opts buffer fuel offset depth outSz) ∧
    (∀ n offset depth outSz path i,
      plainE (mParseItemsM opts buffer fuel n offset depth outSz path i) =
        mParseItems opts buffer fuel n offset depth outSz) ∧
    (∀ offset depth outSz count path,
      plainE (mParseIndefItemsM opts buffer fuel offset depth outSz count path) =
        mParseIndefItems opts buffer fuel offset depth outSz count) ∧
    (∀ n offset depth outSz path i seen,
      plainE (mParsePairsM opts buffer fuel n offset depth outSz path i seen) =
        mParsePairs opts buffer fuel n offset depth outSz seen) ∧
    (∀ offset depth outSz count path seen,
      plainE (mParseIndefPairsM opts buffer fuel offset depth outSz count path seen) =
        mParseIndefPairs opts buffer fuel offset depth outSz count seen) := by
  intro fuel
  induction fuel with
  | zero => exact ⟨fun _ _ _ _ _ => rfl, fun _ _ _ _ _ _ => rfl, fun _ _ _ _ _ => rfl,
      fun _ _ _ _ _ _ _ => rfl, fun _ _ _ _ _ _ => rfl⟩
  | succ fuel ih =>
    obtain ⟨ihV, ihI, ihII, ihP, ihIP⟩ := ih
    refine ⟨?_, ?_, ?_, ?_, ?_⟩
    · intro offset depth outSz path parent
      rw [mParseValM, mParseVal]
      cases hr : readByteK buffer offset with
      | error e => simp
      | ok b =>
        simp only [ok_bind]
        by_cases h0 : (extractCborHeader b).1 = 0
        · rw [if_pos h0, if_pos h0]
          cases ha : parseArgK buffer offset (extractCborHeader b).2 with
          | error e => simp
          | ok a => simp only [ok_bind, plainE_finishValM]
        rw [if_neg h0, if_neg h0]
        by_cases h1 : (extractCborHeader b).1 = 1
        · rw [if_pos h1, if_pos h1]
          cases ha : parseArgK buffer offset (extractCborHeader b).2 with
          | error e => simp
          | ok a => simp only [ok_bind, plainE_finishValM]
        rw [if_neg h1, if_neg h1]
        by_cases h2 : (extractCborHeader b).1 = 2
        · rw [if_pos h2, if_pos h2]
          cases hc : mParseStringContent opts buffer 2 fuel offset (extractCborHeader b).2 with
          | error e => simp
          | ok c =>
            simp only [ok_bind]
            by_cases hl : c.1.length > opts.maxByteStringLength
            · rw [if_pos hl, if_pos hl, plainE_error]
            · rw [if_neg hl, if_neg hl, plainE_finishValM]
        rw [if_neg h2, if_neg h2]
        by_cases h3 : (extractCborHeader b).1 = 3
        · rw [if_pos h3, if_pos h3]
          cases hc : mParseStringContent opts buffer 3 fuel offset (extractCborHeader b).2 with
          | error e => simp
          | ok c =>
            simp only [ok_bind]
            by_cases hl : c.1.length > opts.maxTextStringLength
            · rw [if_pos hl, if_pos hl, plainE_error]
            · rw [if_neg hl, if_neg hl]
              by_cases hu : (opts.strictUtf8 && !(utf8Valid c.1)) = true
              · rw [if_pos hu, if_pos hu, plainE_error]
              · rw [if_neg hu, if_neg hu, plainE_finishValM]
        rw [if_neg h3, if_neg h3]
        by_cases h4 : (extractCborHeader b).1 = 4
        · rw [if_pos h4, if_pos h4]
          by_cases hd : depth + 1 > opts.maxDepth
          · rw [if_pos hd, if_pos hd, plainE_error]
          · rw [if_neg hd, if_neg hd]
            by_cases h31 : (extractCborHeader b).2 = 31
            · rw [if_pos h31, if_pos h31]
              by_cases hai : opts.allowIndefinite = false
              · rw [if_pos hai, if_pos hai, plainE_error]
              · rw [if_neg hai, if_neg hai]
                rw [← ihII (offset + 1) (depth + 1) outSz 0 path]
                cases hr2 : mParseIndefItemsM opts buffer fuel (offset + 1) (depth + 1) outSz 0 path with
                | error e => simp
                | ok r => simp [plainE, plain4, Except.map]
            · rw [if_neg h31, if_neg h31]
              cases ha : parseArgK buffer offset (extractCborHeader b).2 with
              | error e => simp
              | ok a =>
                simp only [ok_bind]
                by_cases hlim : a.1 > opts.maxArrayLength
                · rw [if_pos hlim, if_pos hlim, plainE_error]
                · rw [if_neg hlim, if_neg hlim]
                  rw [← ihI a.1 (offset + 1 + a.2) (depth + 1) outSz path 0]
                  cases hr2 : mParseItemsM opts buffer fuel a.1 (offset + 1 + a.2) (depth + 1) outSz path 0 with
                  | error e => simp
                  | ok r => simp [plainE, plain4, Except.map]
        rw [if_neg h4, if_neg h4]
        by_cases h5 : (extractCborHeader b).1 = 5
        · rw [if_pos h5, if_pos h5]
          by_cases hd : depth + 1 > opts.maxDepth
          · rw [if_pos hd, if_pos hd, plainE_error]
          · rw [if_neg hd, if_neg hd]
            by_cases h31 : (extractCborHeader b).2 = 31
            · rw [if_pos h31, if_pos h31]
              by_cases hai : opts.allowIndefinite = false
              · rw [if_pos hai, if_pos hai, plainE_error]
              · rw [if_neg hai, if_neg hai]
                rw [← ihIP (offset + 1) (depth + 1) outSz 0 path []]
                cases hr2 : mParseIndefPairsM opts buffer fuel (offset + 1) (depth + 1) outSz 0 path [] with
                | error e => simp
                | ok r => simp [plainE, plain4, Except.map]
            · rw [if_neg h31, if_neg h31]
              cases ha : parseArgK buffer offset (extractCborHeader b).2 with
              | error e => simp
              | ok a =>
                simp only [ok_bind]
                by_cases hlim : a.1 > opts.maxMapSize
                · rw [if_pos hlim, if_pos hlim, plainE_error]
                · rw [if_neg hlim, if_neg hlim]
                  rw [← ihP a.1 (offset + 1 + a.2) (depth + 1) outSz path 0 []]
                  cases hr2 : mParsePairsM opts buffer fuel a.1 (offset + 1 + a.2) (depth + 1) outSz path 0 [] with
                  | error e => simp
                  | ok r => simp [plainE, plain4, Except.map]
        rw [if_neg h5, if_neg h5]
        by_cases h6 : (extractCborHeader b).1 = 6
        · rw [if_pos h6, if_pos h6]
          by_cases hd : depth + 1 > opts.maxDepth
          · rw [if_pos hd, if_pos hd, plainE_error]
          · rw [if_neg hd, if_neg hd]
            cases ha : parseArgK buffer offset (extractCborHeader b).2 with
            | error e => simp
            | ok a =>
              simp only [ok_bind]
              rw [← ihV (offset + 1 + a.2) (depth + 1) outSz (pathTag path) path]
              cases hri : mParseValM opts buffer fuel (offset + 1 + a.2) (depth + 1) outSz (pathTag path) path with
              | error e => simp
              | ok r =>
                simp only [plainE_ok, ok_bind]
                rw [show plain4 r = (r.1, r.2.1, r.2.2.1) from rfl]
                simp only []
                cases hv : tagValidate opts (r.2.1 - offset) a.1 r.1 with
                | error e => simp
                | ok v => simp [plainE, plain4, Except.map]
        rw [if_neg h6, if_neg h6]
        by_cases h7 : (extractCborHeader b).1 = 7
        · rw [if_pos h7, if_pos h7]
          cases hp : parseFromBuffer buffer offset (some ⟨opts.validateCanonical⟩) with
          | error msg => rfl
          | ok r => exact plainE_finishValM opts (.leaf r.1) offset (offset + r.2) outSz path parent 7
        · rw [if_neg h7, if_neg h7, plainE_error]
    · intro n offset depth outSz path i
      cases n with
      | zero => rw [mParseItemsM, mParseItems]; rfl
      | succ k =>
        rw [mParseItemsM, mParseItems]
        rw [← ihV offset depth outSz (pathIdx path i) path]
        cases hr : mParseValM opts buffer fuel offset depth outSz (pathIdx path i) path with
        | error e => simp
        | ok r =>
          simp only [plainE_ok, ok_bind]
          rw [show plain4 r = (r.1, r.2.1, r.2.2.1) from rfl]
          simp only []
          rw [← ihI k r.2.1 depth r.2.2.1 path (i + 1)]
          cases hr2 : mParseItemsM opts buffer fuel k r.2.1 depth r.2.2.1 path (i + 1) with
          | error e => simp
          | ok rs => simp [plainE, plain4, Except.map]
    · intro offset depth outSz count path
      rw [mParseIndefItemsM, mParseIndefItems]
      cases hr : readByteK buffer offset with
      | error e => simp
      | ok b =>
        simp only [orBreakErr_ok, ok_bind]
        by_cases hbr : b.val = 0xff
        · rw [if_pos hbr, if_pos hbr, plainE_ok, plain4_mk]
        · rw [if_neg hbr, if_neg hbr]
          by_cases hc : count + 1 > opts.maxArrayLength
          · rw [if_pos hc, if_pos hc, plainE_error]
          · rw [if_neg hc, if_neg hc]
            rw [← ihV offset depth outSz (pathIdx path count) path]
            cases hr1 : mParseValM opts buffer fuel offset depth outSz (pathIdx path count) path with
            | error e => simp
            | ok r =>
              simp only [plainE_ok, ok_bind]
              rw [show plain4 r = (r.1, r.2.1, r.2.2.1) from rfl]
              simp only []
              rw [← ihII r.2.1 depth r.2.2.1 (count + 1) path]
              cases hr2 : mParseIndefItemsM opts buffer fuel r.2.1 depth r.2.2.1 (count + 1) path with
              | error e => simp
              | ok rs => simp [plainE, plain4, Except.map]
    · intro n offset depth outSz path i seen
      cases n with
      | zero => rw [mParsePairsM, mParsePairs]; rfl
      | succ k =>
        rw [mParsePairsM, mParsePairs]
        rw [← ihV offset depth outSz (pathKeyIdx path i) path]
        cases hrk : mParseValM opts buffer fuel offset depth outSz (pathKeyIdx path i) path with
        | error e => simp
        | ok rk =>
          simp only [plainE_ok, ok_bind]
          rw [show plain4 rk = (rk.1, rk.2.1, rk.2.2.1) from rfl]
          simp only []
          by_cases hko : (opts.validateCanonical && !(keyOrderOk seen (keySlice buffer offset rk.2.1))) = true
          · rw [if_pos hko, if_pos hko, plainE_error]
          · rw [if_neg hko, if_neg hko]
            by_cases hdup : seen.contains (keySlice buffer offset rk.2.1) = true
            · rw [if_pos hdup, if_pos hdup, plainE_error]
            · rw [if_neg hdup, if_neg hdup]
              rw [← ihV rk.2.1 depth rk.2.2.1 (pathKey path rk.1) path]
              cases hrv : mParseValM opts buffer fuel rk.2.1 depth rk.2.2.1 (pathKey path rk.1) path with
              | error e => simp
              | ok rv =>
                simp only [plainE_ok, ok_bind]
                rw [show plain4 rv = (rv.1, rv.2.1, rv.2.2.1) from rfl]
                simp only []
                rw [← ihP k rv.2.1 depth rv.2.2.1 path (i + 1) (keySlice buffer offset rk.2.1 :: seen)]
                cases hrs : mParsePairsM opts buffer fuel k rv.2.1 depth rv.2.2.1 path (i + 1) (keySlice buffer offset rk.2.1 :: seen) with
                | error e => simp
                | ok rs => simp [plainE, plain4, Except.map]
    · intro offset depth outSz count path seen
      rw [mParseIndefPairsM, mParseIndefPairs]
      cases hr : readByteK buffer offset with
      | error e => simp
      | ok b =>
        simp only [orBreakErr_ok, ok_bind]
        by_cases hbr : b.val = 0xff
        · rw [if_pos hbr, if_pos hbr, plainE_ok, plain4_mk]
        · rw [if_neg hbr, if_neg hbr]
          by_cases hc : count + 1 > opts.maxMapSize
          · rw [if_pos hc, if_pos hc, plainE_error]
          · rw [if_neg hc, if_neg hc]
            rw [← ihV offset depth outSz (pathKeyIdx path count) path]
            cases hrk : mParseValM opts buffer fuel offset depth outSz (pathKeyIdx path count) path with
            | error e => simp
            | ok rk =>
              simp only [plainE_ok, ok_bind]
              rw [show plain4 rk = (rk.1, rk.2.1, rk.2.2.1) from rfl]
              simp only []
              by_cases hko : (opts.validateCanonical && !(keyOrderOk seen (keySlice buffer offset rk.2.1))) = true
              · rw [if_pos hko, if_pos hko, plainE_error]
              · rw [if_neg hko, if_neg hko]
                by_cases hdup : seen.contains (keySlice buffer offset rk.2.1) = true
                · rw [if_pos hdup, if_pos hdup, plainE_error]
                · rw [if_neg hdup, if_neg hdup]
                  cases hpk : readByteK buffer rk.2.1 with
                  | error e => simp
                  | ok b2 =>
                    simp only [ok_bind]
                    by_cases hbr2 : b2.val = 0xff
                    · rw [if_pos hbr2, if_pos hbr2, plainE_error]
                    · rw [if_neg hbr2, if_neg hbr2]
                      rw [← ihV rk.2.1 depth rk.2.2.1 (pathKey path rk.1) path]
                      cases hrv : mParseValM opts buffer fuel rk.2.1 depth rk.2.2.1 (pathKey path rk.1) path with
                      | error e => simp
                      | ok rv =>
                        simp only [plainE_ok, ok_bind]
                        rw [show plain4 rv = (rv.1, rv.2.1, rv.2.2.1) from rfl]
                        simp only []
                        rw [← ihIP rv.2.1 depth rv.2.2.1 (count + 1) path (keySlice buffer offset rk.2.1 :: seen)]
                        cases hrs : mParseIndefPairsM opts buffer fuel rv.2.1 depth rv.2.2.1 (count + 1) path (keySlice buffer offset rk.2.1 :: seen) with
                        | error e => simp
                        | ok rs => simp [plainE, plain4, Except.map]


/-- Modelled from the spec: the functional decode(hexString, options) entry point.
It converts the hex string to bytes (hex errors are reported as a decode error)
and runs the recursive parser on the whole buffer. The fuel 3n + 3 for a buffer
of n bytes exceeds the consumption of any parse: along any path of the call
tree, every parser step either consumes the header byte of a new value, moves
to the next item, pair or chunk (each at least one byte of the input), or
descends into a container (at most n nestings), so no well-formed or
ill-formed input can exhaust it. -/
def decode (hexString : String) (options : Option DecodeOptions) :
    Except ErrKind (MVal × ℕ × ℕ) :=
  match hexToBytes hexString with
  | .error _ => .error .invalidHex
  | .ok buffer => mParseVal (options.getD {}) buffer (3 * buffer.length + 3) 0 0 0

/-- Modelled from the spec: decodeWithSourceMap(hexString, options) - same pipeline
as decode but through the source-map building parser, returning the source map
entries alongside the value. -/
def decodeWithSourceMap (hexString : String) (options : Option DecodeOptions) :
    Except ErrKind (MVal × ℕ × ℕ × List SMEntry) :=
  match hexToBytes hexString with
  | .error _ => .error .invalidHex
  | .ok buffer => mParseValM (options.getD {}) buffer (3 * buffer.length + 3) 0 0 0 "" ""

/-- Embedded from src/src/index.ts: the CborDecoder class facade holds the parse
options given at construction. -/
structure CborDecoder where
  options : DecodeOptions

/-- Embedded from src/src/index.ts: the constructor stores options, defaulting a
missing record to the empty record (this.options = options or the empty record). -/
def CborDecoder.new (options : Option DecodeOptions) : CborDecoder := ⟨options.getD {}⟩

/-- Embedded from src/src/index.ts: decoder.decode(hexString) delegates to
decode(hexString, this.options). -/
def CborDecoder.dec (d : CborDecoder) (hexString : String) :
    Except ErrKind (MVal × ℕ × ℕ) :=
  Nachos.decode hexString (some d.options)

/-- Embedded from src/src/index.ts: decoder.decodeWithSourceMap(hexString)
delegates to decodeWithSourceMap(hexString, this.options). -/
def CborDecoder.decWithSourceMap (d : CborDecoder) (hexString : String) :
    Except ErrKind (MVal × ℕ × ℕ × List SMEntry) :=
  Nachos.decodeWithSourceMap hexString (some d.options)

theorem decode_eq_some_default (h : String) :
    decode h (some {}) = decode h none := rfl

/-- Sanity: the nested array [[0]] decodes on the supplied fuel (each
nesting level consumes two fuel, so a linear fuel budget must carry the
factor). -/
theorem decode_scenario_nested :
    decode "818100" none = .ok (.arr [.arr [.uint 0] false] false, 3, 1) := rfl

/-- Sanity: the section 8 scenario 6449455446, the text string IETF. -/
theorem decode_scenario_text :
    decode "6449455446" none = .ok (.text [0x49, 0x45, 0x54, 0x46], 5, 5) := rfl

/-- Sanity: the section 8 scenario 83010203, the array [1, 2, 3]. -/
theorem decode_scenario_array :
    decode "83010203" none = .ok (.arr [.uint 1, .uint 2, .uint 3] false, 4, 3) := rfl

/-- Sanity: the section 8 scenario d87980, tag 121 over the empty array,
the Plutus constructor 0. -/
theorem decode_scenario_plutus :
    decode "d87980" none = .ok (.pconstr 0 [], 3, 0) := rfl

/-- Sanity: the section 8 scenario c249010000000000000000, the bignum
2 to the 64 via tag 2, surfaced as an arbitrary-precision integer. -/
theorem decode_scenario_bignum :
    decode "c249010000000000000000" none = .ok (.uint (2 ^ 64), 11, 10) := rfl

/-- Sanity: the section 8 scenario bf6346756ef563416d7421ff, the
indefinite map from Fun to true and Amt to -2. -/
theorem decode_scenario_indefinite_map :
    decode "bf6346756ef563416d7421ff" none =
      .ok (.mp [(.text [0x46, 0x75, 0x6e], .leaf (.bool true)),
                (.text [0x41, 0x6d, 0x74], .nint 1)] true, 12, 10) := rfl

/-- Sanity: ten nesting levels decode on the supplied fuel. -/
theorem decode_deep_nesting :
    decode "8181818181818181818100" none =
      .ok (.arr [.arr [.arr [.arr [.arr [.arr [.arr [.arr [.arr [.arr [.uint 0]
        false] false] false] false] false] false] false] false] false] false,
        11, 1) := rfl

/-- Sanity: an indefinite byte string concatenates its definite chunks. -/
theorem decode_indefinite_bytes :
    decode "5f41614162ff" none = .ok (.bytes [0x61, 0x62], 6, 6) := rfl

/-- Sanity: a repeated map key fails with DuplicateKey in every mode. -/
theorem decode_duplicate_key :
    decode "a201000100" none = .error .duplicateKey := rfl

/-- Sanity: in canonical mode map keys out of length-lexicographic order
fail with NonCanonicalKeyOrder. -/
theorem decode_noncanonical_key_order :
    decode "a20200010002" (some { validateCanonical := true }) =
      .error .nonCanonicalKeyOrder := rfl

/-- Sanity: under strict_utf8 an ill-formed text string fails with
InvalidUtf8, and without it the same bytes decode as best effort. -/
theorem decode_strict_utf8 :
    decode "62c328" (some { strictUtf8 := true }) = .error .invalidUtf8 ∧
    decode "62c328" none = .ok (.text [0xc3, 0x28], 3, 3) := ⟨rfl, rfl⟩

/-- Sanity: an unknown tag passes through as an opaque tagged value unless
strict_tags is set, in which case it fails with UnknownTag. -/
theorem decode_unknown_tag :
    decode "d86300" none = .ok (.tagged 99 (.uint 0), 3, 1) ∧
    decode "d86300" (some { strictTags := true }) = .error .unknownTag := ⟨rfl, rfl⟩

/-- Sanity: tag 258 over a non-array inner value fails the set shape rule. -/
theorem decode_set_shape :
    decode "d9010200" none = .error .tagShapeMismatch := rfl

/-- C1: for every input and options record, the direct path and the source-map
path agree: dropping the source map from decodeWithSourceMap gives exactly
decode, so both succeed with equal values and byte counts or both fail with the
same error kind, and every limit and rule - max_depth, max_array_length,
max_map_size, the string length ceilings, max_bignum_bytes, max_output_size,
allow_indefinite, the break requirements, strict_utf8, strict_tags, canonical
key order, duplicate keys and the canonical float rules - is enforced
identically on the two paths. -/
theorem C1_paths_agree : ∀ (h : String) (o : Option DecodeOptions),
    plainE (decodeWithSourceMap h o) = decode h o := by
  intro h o
  unfold decode decodeWithSourceMap
  cases hexToBytes h with
  | error e => rfl
  | ok buffer =>
    exact (mParse_plain (o.getD {}) buffer (3 * buffer.length + 3)).1 0 0 0 "" ""

/-- C10: a CborDecoder constructed from an options record stores it unchanged
(defaulting to the empty record), and its two methods delegate to the
functional decode and decodeWithSourceMap with exactly the stored options, so
calls on the instance coincide with independent calls of the functional API. -/
theorem C10_facade_delegates : ∀ (h : String) (o : Option DecodeOptions),
    (CborDecoder.new o).dec h = decode h o ∧
    (CborDecoder.new o).decWithSourceMap h = decodeWithSourceMap h o ∧
    (CborDecoder.new o).options = o.getD {} := by
  intro h o
  cases o with
  | none => exact ⟨rfl, rfl, rfl⟩
  | some opts => exact ⟨rfl, rfl, rfl⟩

end Nachos
